import Mathlib

/-!
Verification development for the pixel-fixer quantization and grid-recovery
core (src/src/workers/quantWorker.ts and the shared image utilities in
src/unnamed/part_001).

Modelling conventions:
* JavaScript `number` arithmetic is modelled over `ℚ`; all constants used by
  the code (1/8, 7/16, 0.05, 1e-6, 0.299, ...) are dyadic or decimal and the
  integer-valued computations (RGB distances, block sums) are exact in both
  IEEE doubles and `ℚ`.
* The transcendental library functions have no rational closed form, so they
  are abstracted as function parameters: `okl` stands for `rgbToOklab`
  (built from Math.cbrt / Math.pow), `sqrtA` for `Math.sqrt` and `logA` for
  `Math.log`.  Every theorem below holds for an arbitrary instantiation of
  these parameters.
* `Uint8ClampedArray` / `ImageData` buffers are modelled as `List RGBA`
  (one entry per 4-byte RGBA group, row major).  Reading a JS typed array
  out of range yields `undefined`, and storing `undefined` (via NaN) into a
  `Uint8ClampedArray` stores 0; in-range behaviour is what the theorems use,
  with `List.getD` supplying the same layout.
* The lookup cache (`Int32Array` filled with -1) is a total function
  `Nat → Option Nat`, `Option.none` standing for an unresolved (-1) entry.
-/

/-- One RGBA sample (8-bit channels of a `Uint8ClampedArray`, row major). -/
structure RGBA where
  r : Nat
  g : Nat
  b : Nat
  a : Nat
deriving DecidableEq

/-- One palette entry, as used by the non-worker path (`{r,g,b}` objects). -/
structure RGB where
  r : Nat
  g : Nat
  b : Nat
deriving DecidableEq

/-- Worker dither mode (quantWorker.ts `DitherMode`). -/
inductive DitherMode where
  | none
  | floydSteinberg
  | ordered4
  | ordered8
  | atkinson
  | optimisedCustom
deriving DecidableEq

/-- Distance metric (quantWorker.ts `DistanceMode`). -/
inductive DistanceMode where
  | rgb
  | oklab
deriving DecidableEq

/-- quantWorker.ts `clamp255`: `x<0?0:x>255?255:x`. -/
def clamp255 (x : ℚ) : ℚ := if x < 0 then 0 else if x > 255 then 255 else x

/-- quantWorker.ts `buildPalettePrepared` result record. -/
structure Prep where
  pr : List Nat
  pg : List Nat
  pb : List Nat
  pL : List ℚ
  pA : List ℚ
  pB : List ℚ
  n : Nat

/-- quantWorker.ts `buildPalettePrepared`: split a flat `[r,g,b,...]` palette
into channel arrays and (for OKLab distance) precompute OKLab coordinates via
`okl`, the abstract model of `rgbToOklab`. -/
def buildPalettePrepared (okl : ℚ → ℚ → ℚ → ℚ × ℚ × ℚ) (pFlat : List Nat)
    (distance : DistanceMode) : Prep :=
  let n := pFlat.length / 3
  let pr := (List.range n).map (fun i => pFlat.getD (i * 3) 0)
  let pg := (List.range n).map (fun i => pFlat.getD (i * 3 + 1) 0)
  let pb := (List.range n).map (fun i => pFlat.getD (i * 3 + 2) 0)
  if distance = DistanceMode.oklab then
    let lab := (List.range n).map (fun i =>
      okl (pr.getD i 0 : ℚ) (pg.getD i 0 : ℚ) (pb.getD i 0 : ℚ))
    { pr := pr, pg := pg, pb := pb
      pL := lab.map (fun t => t.1)
      pA := lab.map (fun t => t.2.1)
      pB := lab.map (fun t => t.2.2)
      n := n }
  else
    { pr := pr, pg := pg, pb := pb, pL := [], pA := [], pB := [], n := n }

/-- The nearest-color lookup cache of quantWorker.ts `makeLUT`:
`Option.none` models an `Int32Array` slot still holding -1. -/
structure LUT where
  bits : Nat
  tbl : Nat → Option Nat

/-- quantWorker.ts `makeLUT`: a fresh cache with every slot unresolved. -/
def makeLUT (bits : Nat) : LUT := ⟨bits, fun _ => Option.none⟩

/-- JS `q >> shift` for the clamped channel values in [0,255]: ToInt32
truncation, which on these non-negative values is the floor. -/
def jsShr (q : ℚ) (shift : Nat) : Nat := (Int.toNat ⌊q⌋) >>> shift

/-- quantWorker.ts `makeLUT`'s `key` closure:
`((r>>shift) << (bits*2)) | ((g>>shift) << bits) | (b>>shift)`. -/
def lutKey (bits : Nat) (r g b : ℚ) : Nat :=
  ((jsShr r (8 - bits)) <<< (bits * 2)) ||| ((jsShr g (8 - bits)) <<< bits) |||
    jsShr b (8 - bits)

/-- Write-through of `lut.lut[k] = best`. -/
def lutStore (l : LUT) (k v : Nat) : LUT :=
  ⟨l.bits, fun k2 => if k2 = k then Option.some v else l.tbl k2⟩

/-- The scan loop shared by both branches of `nearestIdx`:
`best = 0; bestDist = Infinity; for i in [0,n): if (dist i < bestDist) ...`.
`Option.none` in the state models `bestDist = Infinity`. -/
def scanLoop (dist : Nat → ℚ) (n : Nat) : Nat :=
  ((List.range n).foldl
    (fun st i =>
      let d := dist i
      match st.2 with
      | Option.none => (i, Option.some d)
      | Option.some bd => if d < bd then (i, Option.some d) else st)
    (0, Option.none)).1

/-- The squared RGB distance of `nearestIdx`'s rgb branch at palette index i. -/
def rgbDistAt (prep : Prep) (r g b : ℚ) (i : Nat) : ℚ :=
  let dr := r - (prep.pr.getD i 0 : ℚ)
  let dg := g - (prep.pg.getD i 0 : ℚ)
  let db := b - (prep.pb.getD i 0 : ℚ)
  dr * dr + dg * dg + db * db

/-- The squared OKLab distance of `nearestIdx`'s oklab branch at index i. -/
def oklabDistAt (okl : ℚ → ℚ → ℚ → ℚ × ℚ × ℚ) (prep : Prep) (r g b : ℚ)
    (i : Nat) : ℚ :=
  let q := okl r g b
  let dL := q.1 - prep.pL.getD i 0
  let da := q.2.1 - prep.pA.getD i 0
  let db2 := q.2.2 - prep.pB.getD i 0
  dL * dL + da * da + db2 * db2

/-- The full scan of quantWorker.ts `nearestIdx` (the part between the cache
probe and the cache store). -/
def nearestScan (okl : ℚ → ℚ → ℚ → ℚ × ℚ × ℚ) (r g b : ℚ) (prep : Prep)
    (distance : DistanceMode) : Nat :=
  if distance = DistanceMode.rgb then scanLoop (rgbDistAt prep r g b) prep.n
  else scanLoop (oklabDistAt okl prep r g b) prep.n

/-- quantWorker.ts `nearestIdx`: probe the cache (a stored value is always
`>= 0`), otherwise run the full scan and store the result.  The possibly
updated cache is returned alongside the index (the JS code mutates it). -/
def nearestIdx (okl : ℚ → ℚ → ℚ → ℚ × ℚ × ℚ) (r g b : ℚ) (prep : Prep)
    (distance : DistanceMode) (lut : Option LUT) : Nat × Option LUT :=
  match lut with
  | Option.none => (nearestScan okl r g b prep distance, Option.none)
  | Option.some l =>
    match l.tbl (lutKey l.bits r g b) with
    | Option.some c => (c, Option.some l)
    | Option.none =>
      let best := nearestScan okl r g b prep distance
      (best, Option.some (lutStore l (lutKey l.bits r g b) best))

/-- quantWorker.ts `QuantizeJob`.  `ditherAmount` is not part of the TS
interface, but the submitting side (`quantizeToPaletteAdvancedFast`) does put
it on the message object, so the job value carries it. -/
structure QuantizeJob where
  width : Nat
  height : Nat
  src : List RGBA
  palette : List Nat
  mode : DitherMode
  distance : DistanceMode
  orderedStrength : ℚ
  serpentine : Bool
  yStart : Option Nat
  yEnd : Option Nat
  cacheBits : Option Nat
  ditherAmount : ℚ
deriving DecidableEq

/-- The 4x4 Bayer matrix literal `M4` of `doNoneOrOrdered`. -/
def M4 : List (List ℚ) :=
  [[0, 8, 2, 10],
   [12, 4, 14, 6],
   [3, 11, 1, 9],
   [15, 7, 13, 5]]

/-- The 8x8 Bayer matrix literal `M8` of `doNoneOrOrdered`. -/
def M8 : List (List ℚ) :=
  [[0, 32, 8, 40, 2, 34, 10, 42],
   [48, 16, 56, 24, 50, 18, 58, 26],
   [12, 44, 4, 36, 14, 46, 6, 38],
   [60, 28, 52, 20, 62, 30, 54, 22],
   [3, 35, 11, 43, 1, 33, 9, 41],
   [51, 19, 59, 27, 49, 17, 57, 25],
   [15, 47, 7, 39, 13, 45, 5, 37],
   [63, 31, 55, 23, 61, 29, 53, 21]]

/-- The (y, x) traversal order of the two nested loops
`for y in [y0, y1) for x in [0, w)`. -/
def coords (y0 rows w : Nat) : List (Nat × Nat) :=
  (List.range rows).flatMap (fun dy => (List.range w).map (fun x => (y0 + dy, x)))

/-- The per-cell body of `doNoneOrOrdered`, threading the cache and the output
strip (cells are written at `(y-y0)*w+x`, exactly the traversal order, so the
strip is modelled by appending). -/
def noneCell (okl : ℚ → ℚ → ℚ → ℚ × ℚ × ℚ) (prep : Prep)
    (distance : DistanceMode) (mode : DitherMode) (M : List (List ℚ))
    (size : Nat) (denom strength : ℚ) (w y0 : Nat) (src : List RGBA)
    (st : LUT × List RGBA) (yx : Nat × Nat) : LUT × List RGBA :=
  let j := (yx.1 - y0) * w + yx.2
  let px := src.getD j ⟨0, 0, 0, 0⟩
  let r0 : ℚ := px.r
  let g0 : ℚ := px.g
  let b0 : ℚ := px.b
  let c :=
    if mode = DitherMode.ordered4 ∨ mode = DitherMode.ordered8 then
      let t := ((M.getD (yx.1 % size) []).getD (yx.2 % size) 0 / denom - 0.5) *
        strength
      (clamp255 (r0 + t), clamp255 (g0 + t), clamp255 (b0 + t))
    else (r0, g0, b0)
  let res := nearestIdx okl c.1 c.2.1 c.2.2 prep distance (Option.some st.1)
  let idx := res.1
  (res.2.getD st.1,
   st.2 ++ [⟨prep.pr.getD idx 0, prep.pg.getD idx 0, prep.pb.getD idx 0, 255⟩])

/-- quantWorker.ts `doNoneOrOrdered`: direct nearest match, optionally
perturbed by a Bayer matrix, over the scanline strip `[yStart, yEnd)`.
The JS `orderedStrength ?? 0.5` default never fires (the field is required on
`QuantizeJob`). -/
def doNoneOrOrdered (okl : ℚ → ℚ → ℚ → ℚ × ℚ × ℚ) (job : QuantizeJob) :
    List RGBA :=
  let w := job.width
  let y0 := job.yStart.getD 0
  let y1 := job.yEnd.getD job.height
  let prep := buildPalettePrepared okl job.palette job.distance
  let lut0 := makeLUT (job.cacheBits.getD 5)
  let size := if job.mode = DitherMode.ordered4 then 4 else 8
  let denom : ℚ := if size = 4 then 16 else 64
  let M := if job.mode = DitherMode.ordered4 then M4 else M8
  let strength := clamp255 (255 * job.orderedStrength)
  ((coords y0 (y1 - y0) w).foldl
    (noneCell okl prep job.distance job.mode M size denom strength w y0 job.src)
    (lut0, [])).2

-- Small sanity checks of the embedding on concrete inputs.
example :
    doNoneOrOrdered (fun _ _ _ => (0, 0, 0))
      { width := 1, height := 2, src := [⟨0,0,0,255⟩, ⟨3,3,3,255⟩],
        palette := [0,0,0,4,4,4], mode := DitherMode.none,
        distance := DistanceMode.rgb, orderedStrength := 1/2,
        serpentine := false, yStart := Option.none, yEnd := Option.none,
        cacheBits := Option.none, ditherAmount := 1 } =
      [⟨0,0,0,255⟩, ⟨0,0,0,255⟩] := by
  norm_num +decide [doNoneOrOrdered, coords, noneCell, nearestIdx, nearestScan,
    scanLoop, rgbDistAt, buildPalettePrepared, makeLUT, lutStore, lutKey,
    jsShr, clamp255, List.range_succ]

example :
    doNoneOrOrdered (fun _ _ _ => (0, 0, 0))
      { width := 1, height := 2, src := [⟨3,3,3,255⟩],
        palette := [0,0,0,4,4,4], mode := DitherMode.none,
        distance := DistanceMode.rgb, orderedStrength := 1/2,
        serpentine := false, yStart := Option.some 1, yEnd := Option.some 2,
        cacheBits := Option.none, ditherAmount := 1 } =
      [⟨4,4,4,255⟩] := by
  norm_num +decide [doNoneOrOrdered, coords, noneCell, nearestIdx, nearestScan,
    scanLoop, rgbDistAt, buildPalettePrepared, makeLUT, lutStore, lutKey,
    jsShr, clamp255, List.range_succ]

/-- `weightsFS` of `doDiffusion`: the Floyd-Steinberg taps `[dx, dy, factor]`. -/
def weightsFS : List (Int × Int × ℚ) :=
  [(1, 0, 7/16), (-1, 1, 3/16), (0, 1, 5/16), (1, 1, 1/16)]

/-- `weightsAtk` of `doDiffusion`: the Atkinson taps `[dx, dy, factor]`. -/
def weightsAtk : List (Int × Int × ℚ) :=
  [(1, 0, 1/8), (2, 0, 1/8), (-1, 1, 1/8), (0, 1, 1/8), (1, 1, 1/8), (0, 2, 1/8)]

/-- The serpentine traversal order of the diffusion loops: row y is walked
right-to-left when `serpentine && y % 2 === 1`. -/
def serpCoords (w h : Nat) (serpentine : Bool) : List (Nat × Nat) :=
  (List.range h).flatMap (fun y =>
    (if serpentine ∧ y % 2 = 1 then (List.range w).reverse else List.range w).map
      (fun x => (y, x)))

/-- The scan direction `dir` of the diffusion loops at row y. -/
def serpDir (serpentine : Bool) (y : Nat) : Int :=
  if serpentine ∧ y % 2 = 1 then -1 else 1

/-- One tap of the inner `for(const [dx,dy,f] of weights)` loop of
`doDiffusion`: add `er*f / eg*f / eb*f` to the float error accumulator at the
neighbor `(x + dx*dir, y + dy)` when it is in range
(`if(nx<0||nx>=w||ny<0||ny>=h) continue`). -/
def tapStep (w h : Nat) (dir : Int) (x y : Nat) (er eg eb : ℚ)
    (bf : Nat → ℚ) (t : Int × Int × ℚ) : Nat → ℚ :=
  if (x : Int) + t.1 * dir < 0 ∨ (w : Int) ≤ (x : Int) + t.1 * dir ∨
      (y : Int) + t.2.1 < 0 ∨ (h : Int) ≤ (y : Int) + t.2.1 then bf
  else
    fun j =>
      if j = (((y : Int) + t.2.1).toNat * w + ((x : Int) + t.1 * dir).toNat) * 3
      then bf ((((y : Int) + t.2.1).toNat * w +
          ((x : Int) + t.1 * dir).toNat) * 3) + er * t.2.2
      else if j = (((y : Int) + t.2.1).toNat * w +
          ((x : Int) + t.1 * dir).toNat) * 3 + 1
      then bf ((((y : Int) + t.2.1).toNat * w +
          ((x : Int) + t.1 * dir).toNat) * 3 + 1) + eg * t.2.2
      else if j = (((y : Int) + t.2.1).toNat * w +
          ((x : Int) + t.1 * dir).toNat) * 3 + 2
      then bf ((((y : Int) + t.2.1).toNat * w +
          ((x : Int) + t.1 * dir).toNat) * 3 + 2) + eb * t.2.2
      else bf j

/-- The whole inner weights loop of `doDiffusion`: fold `tapStep` over the
weight taps.  The accumulator is the flat `w*h*3` float buffer, modelled as a
total function. -/
def distributeErr (w h : Nat) (dir : Int) (x y : Nat)
    (weights : List (Int × Int × ℚ)) (er eg eb : ℚ) (buf : Nat → ℚ) :
    Nat → ℚ :=
  weights.foldl (tapStep w h dir x y er eg eb) buf

/-- The per-pixel body of the plain Floyd-Steinberg / Atkinson loop of
`doDiffusion`, threading the cache, the error accumulator and the output
image (the output is a total function because serpentine rows write it in
descending x order). -/
def diffCell (okl : ℚ → ℚ → ℚ → ℚ × ℚ × ℚ) (prep : Prep)
    (distance : DistanceMode) (weights : List (Int × Int × ℚ))
    (serpentine : Bool) (w h : Nat) (src : List RGBA)
    (st : LUT × (Nat → ℚ) × (Nat → RGBA)) (yx : Nat × Nat) :
    LUT × (Nat → ℚ) × (Nat → RGBA) :=
  let idx := yx.1 * w + yx.2
  let bIdx := idx * 3
  let px := src.getD idx ⟨0, 0, 0, 0⟩
  let r := clamp255 ((px.r : ℚ) + st.2.1 bIdx)
  let g := clamp255 ((px.g : ℚ) + st.2.1 (bIdx + 1))
  let b := clamp255 ((px.b : ℚ) + st.2.1 (bIdx + 2))
  let res := nearestIdx okl r g b prep distance (Option.some st.1)
  let pi := res.1
  let outPx : RGBA :=
    ⟨prep.pr.getD pi 0, prep.pg.getD pi 0, prep.pb.getD pi 0, 255⟩
  let er := r - (prep.pr.getD pi 0 : ℚ)
  let eg := g - (prep.pg.getD pi 0 : ℚ)
  let eb := b - (prep.pb.getD pi 0 : ℚ)
  let dir := serpDir serpentine yx.1
  (res.2.getD st.1,
   distributeErr w h dir yx.2 yx.1 weights er eg eb st.2.1,
   fun j => if j = idx then outPx else st.2.2 j)

/-- Result record of quantWorker.ts `analyzePalette`. -/
structure PalAnalysis where
  density : List ℚ
  relationships : List (List ℚ)

/-- The distance between palette entries i and j used by `analyzePalette`
(`Math.sqrt` of the squared channel distance, via the abstract `sqrtA`). -/
def palPairDist (sqrtA : ℚ → ℚ) (prep : Prep)
    (distance : DistanceMode) (i j : Nat) : ℚ :=
  if distance = DistanceMode.rgb then
    let dr := (prep.pr.getD i 0 : ℚ) - (prep.pr.getD j 0 : ℚ)
    let dg := (prep.pg.getD i 0 : ℚ) - (prep.pg.getD j 0 : ℚ)
    let db := (prep.pb.getD i 0 : ℚ) - (prep.pb.getD j 0 : ℚ)
    sqrtA (dr * dr + dg * dg + db * db)
  else
    let dL := prep.pL.getD i 0 - prep.pL.getD j 0
    let da := prep.pA.getD i 0 - prep.pA.getD j 0
    let db := prep.pB.getD i 0 - prep.pB.getD j 0
    sqrtA (dL * dL + da * da + db * db)

/-- quantWorker.ts `analyzePalette`: per-entry inverse-distance local density
(entries closer than 0.2) and the pairwise distance matrix. -/
def analyzePalette (sqrtA : ℚ → ℚ)
    (prep : Prep) (distance : DistanceMode) : PalAnalysis :=
  let n := prep.n
  let density := (List.range n).map (fun i =>
    let localDensity := (List.range n).foldl
      (fun acc j =>
        if i = j then acc
        else
          let dist := palPairDist sqrtA prep distance i j
          if dist < 0.2 then acc + 1 / (dist + 0.01) else acc)
      0
    min 1 (localDensity / 10))
  let relationships := (List.range n).map (fun i =>
    (List.range n).map (fun j =>
      if i = j then 0 else palPairDist sqrtA prep distance i j))
  ⟨density, relationships⟩

/-- Stable insertion into a list sorted by ascending `.2` (the distance):
the JS `Array.prototype.sort` comparator is `a.dist - b.dist` and the sort is
stable, so an element is placed after every element of smaller-or-equal
distance already present. -/
def sortInsertDist (x : Nat × ℚ) : List (Nat × ℚ) → List (Nat × ℚ)
  | [] => [x]
  | y :: ys => if y.2 ≤ x.2 then y :: sortInsertDist x ys else x :: y :: ys

/-- Stable sort by ascending `.2`, modelling `candidates.sort((a,b) => a.dist - b.dist)`. -/
def stableSortDist : List (Nat × ℚ) → List (Nat × ℚ)
  | [] => []
  | x :: xs => sortInsertDist x (stableSortDist xs)

/-- quantWorker.ts `findBestPaletteCandidates`: all (index, squared distance)
pairs, stably sorted by distance, truncated to `numCandidates`. -/
def findBestPaletteCandidates (okl : ℚ → ℚ → ℚ → ℚ × ℚ × ℚ) (r g b : ℚ)
    (prep : Prep) (distance : DistanceMode) (numCandidates : Nat) :
    List (Nat × ℚ) :=
  let candidates :=
    if distance = DistanceMode.rgb then
      (List.range prep.n).map (fun i => (i, rgbDistAt prep r g b i))
    else
      (List.range prep.n).map (fun i => (i, oklabDistAt okl prep r g b i))
  (stableSortDist candidates).take numCandidates

/-- The luma expression `0.299*r + 0.587*g + 0.114*b` used by the context
and gradient helpers of the optimised-custom mode. -/
def lumaOf (px : RGBA) : ℚ := 0.299 * px.r + 0.587 * px.g + 0.114 * px.b

/-- The in-range 3x3 neighborhood luma samples of `calculateContextWeight`,
collected in the source's `dy`-major, `dx`-minor order. -/
def contextSamples (x y w h : Nat) (src : List RGBA) : List ℚ :=
  ([-1, 0, 1] : List Int).flatMap (fun dy =>
    ([-1, 0, 1] : List Int).filterMap (fun dx =>
      let nx := (x : Int) + dx
      let ny := (y : Int) + dy
      if 0 ≤ nx ∧ nx < (w : Int) ∧ 0 ≤ ny ∧ ny < (h : Int) then
        Option.some (lumaOf (src.getD (ny.toNat * w + nx.toNat) ⟨0, 0, 0, 0⟩))
      else Option.none))

/-- quantWorker.ts `calculateContextWeight`: 3x3 luma variance plus a
Sobel-style edge magnitude, each clamped to [0,1]. -/
def calculateContextWeight (sqrtA : ℚ → ℚ) (x y w h : Nat) (src : List RGBA) :
    ℚ × ℚ :=
  let samples := contextSamples x y w h src
  if 1 < samples.length then
    let mean := samples.sum / samples.length
    let variance :=
      (samples.map (fun v => (v - mean) * (v - mean))).sum / samples.length
    let edginess :=
      if 9 ≤ samples.length then
        let gx := -(samples.getD 0 0) - 2 * samples.getD 3 0 - samples.getD 6 0
          + samples.getD 2 0 + 2 * samples.getD 5 0 + samples.getD 8 0
        let gy := -(samples.getD 0 0) - 2 * samples.getD 1 0 - samples.getD 2 0
          + samples.getD 6 0 + 2 * samples.getD 7 0 + samples.getD 8 0
        sqrtA (gx * gx + gy * gy) / 1020
      else 0
    (min 1 edginess, min 1 (variance / 10000))
  else (min 1 0, min 1 (0 / 10000))

/-- quantWorker.ts `selectOptimalCandidate`: score each candidate with
density, edge and variance penalties and keep the first strict minimum. -/
def selectOptimalCandidate (candidates : List (Nat × ℚ)) (context : ℚ × ℚ)
    (analysis : PalAnalysis) : Nat :=
  if candidates.length = 1 then (candidates.getD 0 (0, 0)).1
  else
    (candidates.foldl
      (fun st c =>
        let densityPenalty := analysis.density.getD c.1 0 * 0.2
        let edgePenalty := context.1 * c.2 * 0.1
        let variancePenalty := context.2 * c.2 * 0.05
        let score := c.2 + densityPenalty + edgePenalty + variancePenalty
        match st.2 with
        | Option.none => (c.1, Option.some score)
        | Option.some bs =>
          if score < bs then (c.1, Option.some score) else st)
      ((candidates.getD 0 (0, 0)).1, Option.none)).1

/-- quantWorker.ts `getPerceptualWeights`: per-channel error weights. -/
def getPerceptualWeights (okl : ℚ → ℚ → ℚ → ℚ × ℚ × ℚ) (r g b : ℚ)
    (distance : DistanceMode) : ℚ × ℚ × ℚ :=
  if distance = DistanceMode.rgb then (0.299, 0.587, 0.114)
  else
    let L := (okl r g b).1
    let lightness := max 0.1 (min 1 L)
    let chromaWeight := 0.3 + 0.4 * (1 - |lightness - 0.5| * 2)
    (0.4 + 0.2 * lightness, chromaWeight, chromaWeight * 0.8)

/-- The in-range cross-pattern (luma, distance) samples of `detectGradient`. -/
def gradientSamples (x y w h : Nat) (src : List RGBA) : List (ℚ × ℚ) :=
  ([(0, 0, 0), (-2, 0, 2), (2, 0, 2), (0, -2, 2), (0, 2, 2)] :
      List (Int × Int × ℚ)).filterMap (fun t =>
    let nx := (x : Int) + t.1
    let ny := (y : Int) + t.2.1
    if 0 ≤ nx ∧ nx < (w : Int) ∧ 0 ≤ ny ∧ ny < (h : Int) then
      Option.some (lumaOf (src.getD (ny.toNat * w + nx.toNat) ⟨0, 0, 0, 0⟩),
        t.2.2)
    else Option.none)

/-- quantWorker.ts `detectGradient`: normalized total luma gradient of the
cross pattern around (x, y); `samples[i].dist || 1` guards a zero distance. -/
def detectGradient (x y w h : Nat) (src : List RGBA) : ℚ :=
  let samples := gradientSamples x y w h src
  if 3 ≤ samples.length then
    let center := (samples.getD 0 (0, 0)).1
    let totalGradient := (samples.drop 1).foldl
      (fun acc s => acc + |s.1 - center| / (if s.2 = 0 then 1 else s.2)) 0
    min 1 (totalGradient / (255 * (samples.length - 1 : ℕ)))
  else 0

/-- `baseWeights` of `doOptimisedCustom` (the Floyd-Steinberg pattern). -/
def baseWeightsOC : List (Int × Int × ℚ) :=
  [(1, 0, 7/16), (-1, 1, 3/16), (0, 1, 5/16), (1, 1, 1/16)]

/-- `longRangeWeights` of `doOptimisedCustom`. -/
def longRangeWeightsOC : List (Int × Int × ℚ) :=
  [(2, 0, 1/32), (0, 2, 1/32), (1, 2, 1/32), (-1, 2, 1/64)]

/-- The scaled error-distribution loops of `doOptimisedCustom`: each in-range
neighbor gains `err * (f * factor) * channelWeight`.  With `factor`
instantiated to `errorFactor` this is the base loop; with
`gradientFactor * 0.15` it is the long-range loop. -/
def distributeErrScaled (w h : Nat) (dir : Int) (x y : Nat)
    (weights : List (Int × Int × ℚ)) (factor : ℚ) (pw : ℚ × ℚ × ℚ)
    (er eg eb : ℚ) (buf : Nat → ℚ) : Nat → ℚ :=
  weights.foldl
    (fun bf t =>
      let nx : Int := (x : Int) + t.1 * dir
      let ny : Int := (y : Int) + t.2.1
      if 0 ≤ nx ∧ nx < (w : Int) ∧ 0 ≤ ny ∧ ny < (h : Int) then
        let n := (ny.toNat * w + nx.toNat) * 3
        fun j =>
          if j = n then bf n + er * (t.2.2 * factor) * pw.1
          else if j = n + 1 then bf (n + 1) + eg * (t.2.2 * factor) * pw.2.1
          else if j = n + 2 then bf (n + 2) + eb * (t.2.2 * factor) * pw.2.2
          else bf j
      else bf)
    buf

/-- The per-pixel body of `doOptimisedCustom`. -/
def ocCell (okl : ℚ → ℚ → ℚ → ℚ × ℚ × ℚ) (sqrtA : ℚ → ℚ) (prep : Prep)
    (distance : DistanceMode) (analysis : PalAnalysis) (serpentine : Bool)
    (w h : Nat) (src : List RGBA)
    (st : (Nat → ℚ) × (Nat → RGBA)) (yx : Nat × Nat) :
    (Nat → ℚ) × (Nat → RGBA) :=
  let idx := yx.1 * w + yx.2
  let bIdx := idx * 3
  let px := src.getD idx ⟨0, 0, 0, 0⟩
  let r := clamp255 ((px.r : ℚ) + st.1 bIdx)
  let g := clamp255 ((px.g : ℚ) + st.1 (bIdx + 1))
  let b := clamp255 ((px.b : ℚ) + st.1 (bIdx + 2))
  let candidates := findBestPaletteCandidates okl r g b prep distance 3
  let contextWeight := calculateContextWeight sqrtA yx.2 yx.1 w h src
  let bestIdx := selectOptimalCandidate candidates contextWeight analysis
  let outPx : RGBA :=
    ⟨prep.pr.getD bestIdx 0, prep.pg.getD bestIdx 0, prep.pb.getD bestIdx 0, 255⟩
  let er := r - (prep.pr.getD bestIdx 0 : ℚ)
  let eg := g - (prep.pg.getD bestIdx 0 : ℚ)
  let eb := b - (prep.pb.getD bestIdx 0 : ℚ)
  let densityFactor := analysis.density.getD bestIdx 0
  let pw := getPerceptualWeights okl r g b distance
  let errorFactor := 0.85 + 0.3 * densityFactor
  let dir := serpDir serpentine yx.1
  let buf1 := distributeErrScaled w h dir yx.2 yx.1 baseWeightsOC errorFactor
    pw er eg eb st.1
  let gradientFactor := detectGradient yx.2 yx.1 w h src
  let buf2 :=
    if gradientFactor > 0.3 then
      distributeErrScaled w h dir yx.2 yx.1 longRangeWeightsOC
        (gradientFactor * 0.15) pw er eg eb buf1
    else buf1
  (buf2, fun j => if j = idx then outPx else st.2 j)

/-- quantWorker.ts `doOptimisedCustom`: adaptive palette-aware diffusion over
the whole frame (called by `doDiffusion` with the shared prep/lut/buf; the
`_lut` parameter is unused by the source, matching its underscore name). -/
def doOptimisedCustom (okl : ℚ → ℚ → ℚ → ℚ × ℚ × ℚ) (sqrtA : ℚ → ℚ)
    (job : QuantizeJob) (prep : Prep) (buf0 : Nat → ℚ) : List RGBA :=
  let w := job.width
  let h := job.height
  let analysis := analyzePalette sqrtA prep job.distance
  let final := (serpCoords w h job.serpentine).foldl
    (ocCell okl sqrtA prep job.distance analysis job.serpentine w h job.src)
    (buf0, fun _ => (⟨0, 0, 0, 0⟩ : RGBA))
  (List.range (w * h)).map final.2

/-- quantWorker.ts `doDiffusion`: full-frame error diffusion; dispatches to
`doOptimisedCustom` for the optimised-custom mode, otherwise runs
Floyd-Steinberg (also for the `'none'`-ish fallthrough modes, matching
`mode==='atkinson'? weightsAtk : weightsFS`). -/
def doDiffusion (okl : ℚ → ℚ → ℚ → ℚ × ℚ × ℚ) (sqrtA : ℚ → ℚ)
    (job : QuantizeJob) : List RGBA :=
  let w := job.width
  let h := job.height
  let prep := buildPalettePrepared okl job.palette job.distance
  let lut0 := makeLUT (job.cacheBits.getD 5)
  if job.mode = DitherMode.optimisedCustom then
    doOptimisedCustom okl sqrtA job prep (fun _ => 0)
  else
    let weights :=
      if job.mode = DitherMode.atkinson then weightsAtk else weightsFS
    let final := (serpCoords w h job.serpentine).foldl
      (diffCell okl prep job.distance weights job.serpentine w h job.src)
      (lut0, (fun _ => 0), fun _ => (⟨0, 0, 0, 0⟩ : RGBA))
    (List.range (w * h)).map final.2.2

/-- quantWorker.ts `QuantizeResult`. -/
structure QuantizeResult where
  yStart : Nat
  yEnd : Nat
  out : List RGBA
deriving DecidableEq

/-- The worker's `self.onmessage` handler, as the pure job → result map:
strip-parallel modes go to `doNoneOrOrdered`, everything else to
`doDiffusion`; the result is tagged with the `[yStart, yEnd)` range
(defaulting to the full frame).  None of the embedded code throws, so the
`catch` branch posting `{error}` is unreachable in the model. -/
def onmessageResult (okl : ℚ → ℚ → ℚ → ℚ × ℚ × ℚ) (sqrtA : ℚ → ℚ)
    (job : QuantizeJob) : QuantizeResult :=
  let outBuf :=
    if job.mode = DitherMode.none ∨ job.mode = DitherMode.ordered4 ∨
        job.mode = DitherMode.ordered8 then
      doNoneOrOrdered okl job
    else doDiffusion okl sqrtA job
  { yStart := job.yStart.getD 0, yEnd := job.yEnd.getD job.height, out := outBuf }

/-- An `ImageData`: width, height and the RGBA samples (row major). -/
structure Image where
  width : Nat
  height : Nat
  data : List RGBA
deriving DecidableEq

/-- part_001 `colorDistance`: squared distance in RGB, or in OKLab via the
abstract `okl` conversion. -/
def colorDistance (okl : ℚ → ℚ → ℚ → ℚ × ℚ × ℚ) (aR aG aB bR bG bB : ℚ)
    (mode : DistanceMode) : ℚ :=
  if mode = DistanceMode.rgb then
    let dr := aR - bR
    let dg := aG - bG
    let db := aB - bB
    dr * dr + dg * dg + db * db
  else
    let q1 := okl aR aG aB
    let q2 := okl bR bG bB
    let dL := q1.1 - q2.1
    let da := q1.2.1 - q2.2.1
    let db := q1.2.2 - q2.2.2
    dL * dL + da * da + db * db

/-- part_001 `nearestPaletteColor`: first palette entry of strictly minimal
distance (`bestIdx=0, bestDist=Infinity`, strict `<` update), returning the
entry itself.  On an empty palette the JS code would return `undefined`; the
model returns black, and all callers guard against the empty palette. -/
def nearestPaletteColor (okl : ℚ → ℚ → ℚ → ℚ × ℚ × ℚ) (r g b : ℚ)
    (palette : List RGB) (distance : DistanceMode) : RGB :=
  let bestIdx := ((List.range palette.length).foldl
    (fun st i =>
      let p := palette.getD i ⟨0, 0, 0⟩
      let d := colorDistance okl r g b (p.r : ℚ) (p.g : ℚ) (p.b : ℚ) distance
      match st.2 with
      | Option.none => (i, Option.some d)
      | Option.some bd => if d < bd then (i, Option.some d) else st)
    (0, Option.none)).1
  palette.getD bestIdx ⟨0, 0, 0⟩

/-- part_001 `QuantizeAdvancedOptions`, with the destructuring defaults of
`quantizeToPaletteAdvanced` / `quantizeToPaletteAdvancedFast`. -/
structure QuantizeAdvancedOptions where
  distance : DistanceMode := DistanceMode.oklab
  dithering : DitherMode := DitherMode.none
  orderedStrength : ℚ := 0.5
  serpentine : Bool := true
  ditherAmount : ℚ := 1
deriving DecidableEq

/-- The per-pixel body of the error-diffusion branch of
`quantizeToPaletteAdvanced`; unlike the worker it scales every diffusion tap
by `ditherAmount` and resolves colors with `nearestPaletteColor` (no LUT). -/
def advDiffCell (okl : ℚ → ℚ → ℚ → ℚ × ℚ × ℚ) (palette : List RGB)
    (distance : DistanceMode) (weights : List (Int × Int × ℚ))
    (serpentine : Bool) (ditherAmount : ℚ) (w h : Nat) (src : List RGBA)
    (st : (Nat → ℚ) × (Nat → RGBA)) (yx : Nat × Nat) :
    (Nat → ℚ) × (Nat → RGBA) :=
  let idx := yx.1 * w + yx.2
  let bIdx := idx * 3
  let px := src.getD idx ⟨0, 0, 0, 0⟩
  let r := clamp255 ((px.r : ℚ) + st.1 bIdx)
  let g := clamp255 ((px.g : ℚ) + st.1 (bIdx + 1))
  let b := clamp255 ((px.b : ℚ) + st.1 (bIdx + 2))
  let c := nearestPaletteColor okl r g b palette distance
  let er := r - (c.r : ℚ)
  let eg := g - (c.g : ℚ)
  let eb := b - (c.b : ℚ)
  let dir := serpDir serpentine yx.1
  (distributeErr w h dir yx.2 yx.1 (weights.map (fun t => (t.1, t.2.1, t.2.2 * ditherAmount)))
     er eg eb st.1,
   fun j => if j = idx then (⟨c.r, c.g, c.b, 255⟩ : RGBA) else st.2 j)

/-- part_001 `quantizeToPaletteAdvanced`: palette-aware quantization with
optional dithering, on the main thread.  The `'none'` branch only rewrites
the RGB channels (alpha is preserved); the ordered branch perturbs by the
Bayer matrices scaled by `orderedStrength` and `ditherAmount`; the
error-diffusion branch runs Floyd-Steinberg or Atkinson with the diffused
error scaled by `ditherAmount`. -/
def quantizeToPaletteAdvanced (okl : ℚ → ℚ → ℚ → ℚ × ℚ × ℚ) (img : Image)
    (palette : List RGB) (opts : QuantizeAdvancedOptions) : Image :=
  if palette = [] then img
  else if opts.dithering = DitherMode.none then
    { img with
      data := img.data.map (fun px =>
        let c := nearestPaletteColor okl (px.r : ℚ) (px.g : ℚ) (px.b : ℚ)
          palette opts.distance
        ⟨c.r, c.g, c.b, px.a⟩) }
  else if opts.dithering = DitherMode.ordered4 ∨
      opts.dithering = DitherMode.ordered8 then
    let size := if opts.dithering = DitherMode.ordered4 then 4 else 8
    let M := if size = 4 then M4 else M8
    let denom : ℚ := if size = 4 then 16 else 64
    let w := img.width
    let h := img.height
    { img with
      data := (List.range h).flatMap (fun y => (List.range w).map (fun x =>
        let px := img.data.getD (y * w + x) ⟨0, 0, 0, 0⟩
        let t := ((M.getD (y % size) []).getD (x % size) 0 / denom - 0.5) *
          255 * opts.orderedStrength
        let tScaled := t * opts.ditherAmount
        let r := clamp255 ((px.r : ℚ) + tScaled)
        let g := clamp255 ((px.g : ℚ) + tScaled)
        let b := clamp255 ((px.b : ℚ) + tScaled)
        let c := nearestPaletteColor okl r g b palette opts.distance
        (⟨c.r, c.g, c.b, px.a⟩ : RGBA))) }
  else
    let w := img.width
    let h := img.height
    let weights :=
      if opts.dithering = DitherMode.atkinson then weightsAtk else weightsFS
    let final := (serpCoords w h opts.serpentine).foldl
      (advDiffCell okl palette opts.distance weights opts.serpentine
        opts.ditherAmount w h img.data)
      ((fun _ => 0), fun _ => (⟨0, 0, 0, 0⟩ : RGBA))
    { img with data := (List.range (w * h)).map final.2 }

/-- Result record of part_001 `evaluateScaleOffset1D`.  `⊤ : WithTop ℚ`
models the IEEE `Infinity` produced by `nonSum / 0`. -/
structure Eval1D where
  ratioQ : WithTop ℚ
  nonMean : WithTop ℚ
  bMean : ℚ
deriving DecidableEq

/-- The boundary test of `evaluateScaleOffset1D`:
`((i - d) % s + s) % s === s - 1` with JS remainder semantics; on `Int` the
`%` is already the Euclidean remainder, so the double-mod expression is kept
verbatim and coincides with it. -/
def isBoundary (s d i : Nat) : Bool :=
  (((i : Int) - (d : Int)) % (s : Int) + (s : Int)) % (s : Int) =
    (s : Int) - 1

/-- One step of `evaluateScaleOffset1D`'s accumulation loop over the signal
indices; the accumulator is `(nonSum, nonCount, bSum, bCount)`. -/
def evalStep (diff : List ℚ) (s d : Nat) (a : ℚ × Nat × ℚ × Nat) (i : Nat) :
    ℚ × Nat × ℚ × Nat :=
  let v := diff.getD i 0
  if isBoundary s d i then (a.1, a.2.1, a.2.2.1 + v, a.2.2.2 + 1)
  else (a.1 + v, a.2.1 + 1, a.2.2.1, a.2.2.2)

/-- part_001 `evaluateScaleOffset1D`: partition the signal indices into
boundary and non-boundary positions, take the mean difference magnitude of
each group (`Infinity` and `1e-6` for empty groups respectively) and form
`ratio = nonMean / (bMean + 1e-6)`. -/
def evaluateScaleOffset1D (diff : List ℚ) (s d : Nat) : Eval1D :=
  let n := diff.length
  let acc := (List.range n).foldl (evalStep diff s d) (0, 0, 0, 0)
  let nonMean : WithTop ℚ :=
    if acc.2.1 = 0 then ⊤ else ((acc.1 / (acc.2.1 : ℚ) : ℚ) : WithTop ℚ)
  let bMean : ℚ := if acc.2.2.2 = 0 then 1e-6 else acc.2.2.1 / (acc.2.2.2 : ℚ)
  { ratioQ := nonMean.map (fun nm => nm / (bMean + 1e-6))
    nonMean := nonMean
    bMean := bMean }

/-- The running `best` record of part_001 `detectAxis`. -/
structure AxisBest where
  s : Nat
  d : Nat
  ratioQ : WithTop ℚ
  non : WithTop ℚ
  bound : ℚ
deriving DecidableEq

/-- The score `ratio - 0.05 * Math.log(1 + bMean)` of `detectAxis`, with the
logarithm abstracted as `logA`; an infinite ratio gives an infinite score. -/
def axisScore (logA : ℚ → ℚ) (ratio : WithTop ℚ) (bound : ℚ) : WithTop ℚ :=
  ratio.map (fun q => q - 0.05 * logA (1 + bound))

/-- The `(s, d)` candidate pairs enumerated by `detectAxis`'s two nested
loops: `s` from 2 to `maxS` inclusive, `d` from 0 to `s - 1`. -/
def axisCandidates (maxS : Nat) : List (Nat × Nat) :=
  (List.range' 2 (maxS - 1)).flatMap (fun s =>
    (List.range s).map (fun d => (s, d)))

/-- The candidate record built from `evaluateScaleOffset1D` when a candidate
`(s, d)` wins the comparison in `detectAxis`. -/
def mkAxisBest (diff : List ℚ) (sd : Nat × Nat) : AxisBest :=
  { s := sd.1, d := sd.2, ratioQ := (evaluateScaleOffset1D diff sd.1 sd.2).ratioQ,
    non := (evaluateScaleOffset1D diff sd.1 sd.2).nonMean,
    bound := (evaluateScaleOffset1D diff sd.1 sd.2).bMean }

/-- The loop body of `detectAxis`: keep the candidate when its score is
strictly below the recomputed score of the current best. -/
def axisStep (logA : ℚ → ℚ) (diff : List ℚ) (best : AxisBest)
    (sd : Nat × Nat) : AxisBest :=
  if axisScore logA (evaluateScaleOffset1D diff sd.1 sd.2).ratioQ
      (evaluateScaleOffset1D diff sd.1 sd.2).bMean <
      axisScore logA best.ratioQ best.bound then mkAxisBest diff sd
  else best

/-- part_001 `detectAxis`: scan all candidates, keeping the first strict
minimizer of the score; `best` starts at `{s:1, d:0, ratio:∞, non:0, bound:0}`. -/
def detectAxis (logA : ℚ → ℚ) (diff : List ℚ) (maxS : Nat) : AxisBest :=
  (axisCandidates maxS).foldl (axisStep logA diff)
    { s := 1, d := 0, ratioQ := ⊤, non := 0, bound := 0 }

/-- JS `Math.round` (half toward positive infinity) of the non-negative
block means, as stored into the output `Uint8ClampedArray`. -/
def jsRound (q : ℚ) : Nat := (Int.toNat ⌊q + 0.5⌋)

/-- The pixels of one block scanned by `rebuildBase`'s inner loops, in
`yy`-major, `xx`-minor order. -/
def blockPixels (data : List RGBA) (w startX startY sX sY : Nat) : List RGBA :=
  (List.range sY).flatMap (fun yy =>
    (List.range sX).map (fun xx =>
      data.getD ((startY + yy) * w + (startX + xx)) ⟨0, 0, 0, 0⟩))

/-- The running sums of `rebuildBase`'s per-block loop
(`rSum, gSum, bSum, aSum, count` plus the `transparentPixelCount` share). -/
structure BlockAcc where
  rSum : Nat
  gSum : Nat
  bSum : Nat
  aSum : Nat
  count : Nat
  transp : Nat
deriving DecidableEq

/-- One step of `rebuildBase`'s per-block accumulation: pixels with
`alpha >= 128` contribute to the sums, the others to the transparent count. -/
def blockStep (a : BlockAcc) (px : RGBA) : BlockAcc :=
  if 128 ≤ px.a then
    { a with rSum := a.rSum + px.r, gSum := a.gSum + px.g,
             bSum := a.bSum + px.b, aSum := a.aSum + px.a,
             count := a.count + 1 }
  else { a with transp := a.transp + 1 }

/-- One block of `rebuildBase`: accumulate the channel sums and count of the
pixels with alpha >= 128, counting the others as transparent; emit the
rounded means (alpha included) or a fully transparent pixel. -/
def rebuildBlock (data : List RGBA) (w x0 y0 sX sY bx byIdx : Nat) :
    RGBA × Nat :=
  let startX := x0 + bx * sX
  let startY := y0 + byIdx * sY
  let acc := (blockPixels data w startX startY sX sY).foldl blockStep
    ⟨0, 0, 0, 0, 0, 0⟩
  if 0 < acc.count then
    (⟨jsRound ((acc.rSum : ℚ) / (acc.count : ℚ)),
      jsRound ((acc.gSum : ℚ) / (acc.count : ℚ)),
      jsRound ((acc.bSum : ℚ) / (acc.count : ℚ)),
      jsRound ((acc.aSum : ℚ) / (acc.count : ℚ))⟩, acc.transp)
  else (⟨0, 0, 0, 0⟩, acc.transp)

/-- Crop metadata of part_001 `BuildResult`. -/
structure Crop where
  x0 : Nat
  y0 : Nat
  wCrop : Nat
  hCrop : Nat
  wOut : Nat
  hOut : Nat
deriving DecidableEq

/-- part_001 `BuildResult`. -/
structure BuildResult where
  baseImageData : Image
  crop : Crop
  transparentPixelCount : Nat
deriving DecidableEq

/-- part_001 `rebuildBase`: crop to whole blocks starting at `(dX, dY)` and
emit one alpha-aware averaged pixel per block.  The JS single pass writes the
output pixels in block order while bumping one shared transparent counter;
the model produces the same pixels by mapping over the blocks in that order
and the same counter by summing the per-block contributions. -/
def rebuildBase (img : Image) (sX sY dX dY : Nat) : BuildResult :=
  let w := img.width
  let h := img.height
  let x0 := dX
  let y0 := dY
  let wBlocks := (w - x0) / sX
  let hBlocks := (h - y0) / sY
  let wCrop := wBlocks * sX
  let hCrop := hBlocks * sY
  let cells := (List.range hBlocks).flatMap (fun byIdx =>
    (List.range wBlocks).map (fun bx =>
      rebuildBlock img.data w x0 y0 sX sY bx byIdx))
  { baseImageData := { width := wBlocks, height := hBlocks
                       data := cells.map (fun c => c.1) }
    crop := ⟨x0, y0, wCrop, hCrop, wBlocks, hBlocks⟩
    transparentPixelCount := (cells.map (fun c => c.2)).sum }

/-- pool.ts `paletteToFlat`: flatten `{r,g,b}` entries to `[r,g,b,...]`. -/
def paletteToFlat (palette : List RGB) : List Nat :=
  palette.flatMap (fun p => [p.r, p.g, p.b])

/-- The strip list of `quantizeToPaletteAdvancedFast`'s parallel branch:
strip `s` covers `[s*rowsPer, min h (s*rowsPer + rowsPer))`, stopping at the
first empty strip (`if(yStart>=h) break`). -/
def fastStrips (poolSize h : Nat) : List (Nat × Nat) :=
  let strips := min poolSize h
  let rowsPer := (h + strips - 1) / strips
  (List.range strips).filterMap (fun s =>
    let yStart := s * rowsPer
    if yStart < h then Option.some (yStart, min h (yStart + rowsPer))
    else Option.none)

/-- part_001 `quantizeToPaletteAdvancedFast`: the worker-accelerated path.
An empty palette returns the input unchanged.  Strip-parallelizable modes
submit one `doNoneOrOrdered` job per strip (each receiving only its slice of
the source but the full palette) and reassemble by `[yStart, yEnd)`; the
reassembly-by-offset `out.set(strip, yStart*w*4)` is modelled by
concatenating the strips in `yStart` order, which tile `[0, h)` exactly.
Diffusion modes run one full-frame `doDiffusion` job.  `poolSize` stands for
the pool's worker count (`navigator.hardwareConcurrency` clamped to 1..4). -/
def quantizeToPaletteAdvancedFast (okl : ℚ → ℚ → ℚ → ℚ × ℚ × ℚ)
    (sqrtA : ℚ → ℚ) (poolSize : Nat) (img : Image) (palette : List RGB)
    (opts : QuantizeAdvancedOptions) : Image :=
  if palette = [] then img
  else
    let w := img.width
    let h := img.height
    let flat := paletteToFlat palette
    let canParallel := opts.dithering = DitherMode.none ∨
      opts.dithering = DitherMode.ordered4 ∨ opts.dithering = DitherMode.ordered8
    let cacheBits := if opts.distance = DistanceMode.oklab then 5 else 6
    if canParallel then
      { width := w, height := h
        data := (fastStrips poolSize h).flatMap (fun se =>
          doNoneOrOrdered okl
            { width := w, height := h
              src := (img.data.drop (se.1 * w)).take ((se.2 - se.1) * w)
              palette := flat, mode := opts.dithering
              distance := opts.distance
              orderedStrength := opts.orderedStrength
              serpentine := opts.serpentine
              yStart := Option.some se.1, yEnd := Option.some se.2
              cacheBits := Option.some cacheBits
              ditherAmount := opts.ditherAmount }) }
    else
      { width := w, height := h
        data := doDiffusion okl sqrtA
          { width := w, height := h, src := img.data, palette := flat
            mode := opts.dithering, distance := opts.distance
            orderedStrength := opts.orderedStrength
            serpentine := opts.serpentine
            yStart := Option.none, yEnd := Option.none
            cacheBits := Option.some cacheBits
            ditherAmount := opts.ditherAmount } }

/-- The strip decomposition named by the strip-parallel correctness property:
run `doNoneOrOrdered` with mode `'none'` separately on consecutive strips of
heights `hs` (each job receiving only its slice of the source, exactly as
`quantizeToPaletteAdvancedFast` slices it) and concatenate the results in
`[yStart, yEnd)` order. -/
def runStripsNone (okl : ℚ → ℚ → ℚ → ℚ × ℚ × ℚ) (w h : Nat)
    (palette : List Nat) (distance : DistanceMode) (bits : Nat)
    (strength : ℚ) (serp : Bool) :
    Nat → List RGBA → List Nat → List RGBA
  | _, _, [] => []
  | y0, rem, r :: rest =>
    doNoneOrOrdered okl
      { width := w, height := h, src := rem.take (r * w), palette := palette
        mode := DitherMode.none, distance := distance
        orderedStrength := strength, serpentine := serp
        yStart := Option.some y0, yEnd := Option.some (y0 + r)
        cacheBits := Option.some bits, ditherAmount := 1 } ++
    runStripsNone okl w h palette distance bits strength serp (y0 + r)
      (rem.drop (r * w)) rest

/-! ### Generic list bookkeeping lemmas -/

theorem getD_range_map {α : Type} (l : List α) (d : α) :
    (List.range l.length).map (fun i => l.getD i d) = l := by
  induction l with
  | nil => simp
  | cons x xs ih =>
    rw [List.length_cons, List.range_succ_eq_map, List.map_cons,
      List.getD_cons_zero, List.map_map]
    have hc : ((fun i => (x :: xs).getD i d) ∘ Nat.succ) =
        fun i => xs.getD i d := by
      funext i
      simp [List.getD_cons_succ]
    rw [hc, ih]

theorem range_mul_grid (rows w : Nat) :
    List.range (rows * w) =
      (List.range rows).flatMap (fun dy =>
        (List.range w).map (fun x => dy * w + x)) := by
  induction rows with
  | zero => simp
  | succ r ih =>
    have hmul : (r + 1) * w = r * w + w := by ring
    rw [hmul, List.range_add, ih, List.range_succ, List.flatMap_append]
    simp

theorem grid_length {α : Type} (rows w : Nat) (f : Nat → Nat → α) :
    ((List.range rows).flatMap (fun y => (List.range w).map (f y))).length =
      rows * w := by
  induction rows with
  | zero => simp
  | succ r ih =>
    rw [List.range_succ, List.flatMap_append, List.length_append, ih]
    simp [Nat.succ_mul]

theorem map_range_getD {α : Type} (w x : Nat) (g : Nat → α) (d : α)
    (hx : x < w) :
    (((List.range w).map g).getD x d) = g x := by
  rw [List.getD_eq_getElem _ _ (by simpa using hx)]
  simp

theorem grid_getD {α : Type} (rows w y x : Nat) (f : Nat → Nat → α) (d : α)
    (hy : y < rows) (hx : x < w) :
    ((List.range rows).flatMap (fun yy => (List.range w).map (f yy))).getD
      (y * w + x) d = f y x := by
  induction rows with
  | zero => omega
  | succ r ih =>
    rw [List.range_succ, List.flatMap_append]
    rcases Nat.lt_or_ge y r with hyr | hyr
    · rw [List.getD_append]
      · exact ih hyr
      · rw [grid_length]
        have : y * w + x < y * w + w := by omega
        calc y * w + x < y * w + w := this
          _ = (y + 1) * w := by ring
          _ ≤ r * w := Nat.mul_le_mul_right _ (by omega)
    · have hyr2 : y = r := by omega
      subst hyr2
      rw [List.getD_append_right]
      · rw [grid_length]
        simp only [List.flatMap_cons, List.flatMap_nil, List.append_nil]
        have : y * w + x - y * w = x := by omega
        rw [this, map_range_getD _ _ _ _ hx]
      · rw [grid_length]; omega

/-! ### Concrete instantiations of the abstract library functions, used by
the closed counterexamples and witnesses -/

def oklZero : ℚ → ℚ → ℚ → ℚ × ℚ × ℚ := fun _ _ _ => (0, 0, 0)

def sqrtZero : ℚ → ℚ := fun _ => 0

def logZero : ℚ → ℚ := fun _ => 0

/-- A two-entry prepared palette with identical entries (an exact tie). -/
def prepTie : Prep := ⟨[7, 7], [7, 7], [7, 7], [], [], [], 2⟩

/-! ### C5: cache transparency of the nearest-color resolver -/

/-- C5.  Cache transparency: (i) `nearestIdx` with a freshly created LUT
(all entries unresolved) returns the same palette index as `nearestIdx`
with no LUT at all; (ii) two queries that share the same quantized LUT key,
issued in sequence against one LUT, return the same palette index — the
second answer is the first one's cached index, whether or not it is the
exact nearest for the second color. -/
theorem c5_cache_transparency (okl : ℚ → ℚ → ℚ → ℚ × ℚ × ℚ) (prep : Prep)
    (distance : DistanceMode) :
    (∀ r g b bits,
      (nearestIdx okl r g b prep distance (Option.some (makeLUT bits))).1 =
        (nearestIdx okl r g b prep distance Option.none).1) ∧
    (∀ (l : LUT) r1 g1 b1 r2 g2 b2,
      lutKey l.bits r1 g1 b1 = lutKey l.bits r2 g2 b2 →
      (nearestIdx okl r2 g2 b2 prep distance
          (nearestIdx okl r1 g1 b1 prep distance (Option.some l)).2).1 =
        (nearestIdx okl r1 g1 b1 prep distance (Option.some l)).1) := by
  constructor
  · intro r g b bits
    simp [nearestIdx, makeLUT]
  · intro l r1 g1 b1 r2 g2 b2 hk
    cases htbl : l.tbl (lutKey l.bits r1 g1 b1) with
    | some c => simp [nearestIdx, htbl, ← hk]
    | none => simp [nearestIdx, htbl, ← hk, lutStore]

/-- Witness for C5: a concrete palette, LUT and pair of same-bucket colors
(0,0,0) and (1,1,1) under 5 cache bits. -/
theorem c5_cache_transparency_witness :
    lutKey (makeLUT 5).bits 0 0 0 = lutKey (makeLUT 5).bits 1 1 1 ∧
    (nearestIdx oklZero 1 1 1 prepTie DistanceMode.rgb
        (nearestIdx oklZero 0 0 0 prepTie DistanceMode.rgb
          (Option.some (makeLUT 5))).2).1 =
      (nearestIdx oklZero 0 0 0 prepTie DistanceMode.rgb
        (Option.some (makeLUT 5))).1 := by
  constructor
  · norm_num [lutKey, jsShr, makeLUT]
    decide
  · exact (c5_cache_transparency oklZero prepTie DistanceMode.rgb).2
      (makeLUT 5) 0 0 0 1 1 1 (by norm_num [lutKey, jsShr, makeLUT]; decide)

/-! ### C6: deterministic tie-break of the full scan -/

/-- One step of `scanLoop` (definitionally the loop body). -/
def scanStep (dist : Nat → ℚ) (st : Nat × Option ℚ) (i : Nat) :
    Nat × Option ℚ :=
  match st.2 with
  | Option.none => (i, Option.some (dist i))
  | Option.some bd => if dist i < bd then (i, Option.some (dist i)) else st

theorem scanLoop_eq_foldl (dist : Nat → ℚ) (n : Nat) :
    scanLoop dist n =
      ((List.range n).foldl (scanStep dist) (0, Option.none)).1 := rfl

/-- Loop invariant of `scanLoop` after consuming all indices below `a`:
the running best is the first index of strictly minimal distance so far. -/
def ScanInv (dist : Nat → ℚ) (a : Nat) (st : Nat × Option ℚ) : Prop :=
  match st.2 with
  | Option.none => st.1 = 0 ∧ a = 0
  | Option.some bd =>
      bd = dist st.1 ∧ st.1 < a ∧ (∀ j < a, bd ≤ dist j) ∧
        ∀ j < st.1, bd < dist j

theorem scanStep_inv (dist : Nat → ℚ) (a : Nat) (st : Nat × Option ℚ)
    (h : ScanInv dist a st) : ScanInv dist (a + 1) (scanStep dist st a) := by
  obtain ⟨best, bd⟩ := st
  cases bd with
  | none =>
    obtain ⟨h1, h2⟩ := h
    dsimp only at h1
    subst h1
    subst h2
    show ScanInv dist 1 (0, Option.some (dist 0))
    refine ⟨rfl, Nat.zero_lt_one, ?_, ?_⟩
    · intro j hj
      have hj0 : j = 0 := by omega
      subst hj0
      exact le_refl _
    · intro j hj
      omega
  | some bdv =>
    obtain ⟨h1, h2, h3, h4⟩ := h
    dsimp only at h1 h2 h4
    show ScanInv dist (a + 1)
      (if dist a < bdv then (a, Option.some (dist a)) else (best, Option.some bdv))
    by_cases hlt : dist a < bdv
    · rw [if_pos hlt]
      refine ⟨rfl, by omega, ?_, ?_⟩
      · intro j hj
        rcases Nat.lt_or_ge j a with hja | hja
        · exact le_of_lt (lt_of_lt_of_le hlt (h3 j hja))
        · have hja2 : j = a := by omega
          subst hja2
          exact le_refl _
      · intro j hj
        exact lt_of_lt_of_le hlt (h3 j hj)
    · rw [if_neg hlt]
      refine ⟨h1, by omega, ?_, h4⟩
      intro j hj
      rcases Nat.lt_or_ge j a with hja | hja
      · exact h3 j hja
      · have hja2 : j = a := by omega
        subst hja2
        exact le_of_not_lt hlt

theorem scanFold_inv (dist : Nat → ℚ) :
    ∀ (m a : Nat) (st : Nat × Option ℚ), ScanInv dist a st →
      ScanInv dist (a + m) ((List.range' a m).foldl (scanStep dist) st) := by
  intro m
  induction m with
  | zero => intro a st h; simpa using h
  | succ m ih =>
    intro a st h
    rw [List.range'_succ, List.foldl_cons]
    have := ih (a + 1) (scanStep dist st a) (scanStep_inv dist a st h)
    have harr : a + 1 + m = a + (m + 1) := by omega
    rwa [harr] at this

theorem scanLoop_spec (dist : Nat → ℚ) (n : Nat) (hn : 0 < n) :
    scanLoop dist n < n ∧ (∀ j < n, dist (scanLoop dist n) ≤ dist j) ∧
      ∀ j < scanLoop dist n, dist (scanLoop dist n) < dist j := by
  have h0 : ScanInv dist 0 (0, Option.none) := by
    constructor <;> rfl
  have hinv := scanFold_inv dist n 0 (0, Option.none) h0
  rw [← List.range_eq_range'] at hinv
  rw [scanLoop_eq_foldl]
  rcases hst : ((List.range n).foldl (scanStep dist) (0, Option.none)) with
    ⟨best, bd⟩
  rw [hst] at hinv
  cases bd with
  | none =>
    obtain ⟨_, h2⟩ := hinv
    omega
  | some bdv =>
    obtain ⟨h1, h2, h3, h4⟩ := hinv
    dsimp only at h1 h2 h4 ⊢
    subst h1
    simp only [Nat.zero_add] at h2 h3
    exact ⟨h2, h3, h4⟩

/-- The distance used by the scan at palette index j (rgb or oklab branch). -/
def distAt (okl : ℚ → ℚ → ℚ → ℚ × ℚ × ℚ) (prep : Prep)
    (distance : DistanceMode) (r g b : ℚ) (j : Nat) : ℚ :=
  if distance = DistanceMode.rgb then rgbDistAt prep r g b j
  else oklabDistAt okl prep r g b j

theorem nearestScan_eq_scanLoop_distAt (okl : ℚ → ℚ → ℚ → ℚ × ℚ × ℚ)
    (prep : Prep) (distance : DistanceMode) (r g b : ℚ) :
    nearestScan okl r g b prep distance =
      scanLoop (distAt okl prep distance r g b) prep.n := by
  cases distance with
  | rgb =>
    have hd : distAt okl prep DistanceMode.rgb r g b = rgbDistAt prep r g b := by
      funext j
      simp [distAt]
    rw [hd]
    simp [nearestScan]
  | oklab =>
    have hd : distAt okl prep DistanceMode.oklab r g b =
        oklabDistAt okl prep r g b := by
      funext j
      simp [distAt]
    rw [hd]
    simp [nearestScan]

/-- C6.  Tie-break determinism: for every query color, prepared palette with
at least one entry and distance metric, the uncached full scan
(`nearestIdx` with no LUT) returns a valid palette index of minimal
distance, and every smaller index has strictly larger distance — so among
exact ties the lowest (first-encountered) index wins. -/
theorem c6_tie_break (okl : ℚ → ℚ → ℚ → ℚ × ℚ × ℚ) (r g b : ℚ) (prep : Prep)
    (distance : DistanceMode) (hn : 0 < prep.n) :
    (nearestIdx okl r g b prep distance Option.none).1 < prep.n ∧
    (∀ j < prep.n,
      distAt okl prep distance r g b
          ((nearestIdx okl r g b prep distance Option.none).1) ≤
        distAt okl prep distance r g b j) ∧
    ∀ j < (nearestIdx okl r g b prep distance Option.none).1,
      distAt okl prep distance r g b
          ((nearestIdx okl r g b prep distance Option.none).1) <
        distAt okl prep distance r g b j := by
  have hidx : (nearestIdx okl r g b prep distance Option.none).1 =
      scanLoop (distAt okl prep distance r g b) prep.n := by
    simp [nearestIdx, nearestScan_eq_scanLoop_distAt]
  rw [hidx]
  exact scanLoop_spec _ _ hn

/-- Witness for C6: an exact two-way tie (both palette entries are (7,7,7));
the scan resolves it to the data of index 0. -/
theorem c6_tie_break_witness :
    0 < prepTie.n ∧
    ((nearestIdx oklZero 5 5 5 prepTie DistanceMode.rgb Option.none).1 <
        prepTie.n ∧
      (∀ j < prepTie.n,
        distAt oklZero prepTie DistanceMode.rgb 5 5 5
            ((nearestIdx oklZero 5 5 5 prepTie DistanceMode.rgb
              Option.none).1) ≤
          distAt oklZero prepTie DistanceMode.rgb 5 5 5 j) ∧
      ∀ j < (nearestIdx oklZero 5 5 5 prepTie DistanceMode.rgb Option.none).1,
        distAt oklZero prepTie DistanceMode.rgb 5 5 5
            ((nearestIdx oklZero 5 5 5 prepTie DistanceMode.rgb
              Option.none).1) <
          distAt oklZero prepTie DistanceMode.rgb 5 5 5 j) :=
  ⟨by norm_num [prepTie],
   c6_tie_break oklZero 5 5 5 prepTie DistanceMode.rgb
     (by norm_num [prepTie])⟩

/-! ### C8: Atkinson under-distribution -/

/-- The per-index contribution of one weight tap, as added by `tapStep`. -/
def tapContrib (w h : Nat) (dir : Int) (x y : Nat) (er eg eb : ℚ)
    (t : Int × Int × ℚ) (j : Nat) : ℚ :=
  if (x : Int) + t.1 * dir < 0 ∨ (w : Int) ≤ (x : Int) + t.1 * dir ∨
      (y : Int) + t.2.1 < 0 ∨ (h : Int) ≤ (y : Int) + t.2.1 then 0
  else
    if j = (((y : Int) + t.2.1).toNat * w + ((x : Int) + t.1 * dir).toNat) * 3
    then er * t.2.2
    else if j = (((y : Int) + t.2.1).toNat * w +
        ((x : Int) + t.1 * dir).toNat) * 3 + 1
    then eg * t.2.2
    else if j = (((y : Int) + t.2.1).toNat * w +
        ((x : Int) + t.1 * dir).toNat) * 3 + 2
    then eb * t.2.2
    else 0

theorem tapStep_apply (w h : Nat) (dir : Int) (x y : Nat) (er eg eb : ℚ)
    (bf : Nat → ℚ) (t : Int × Int × ℚ) (j : Nat) :
    tapStep w h dir x y er eg eb bf t j =
      bf j + tapContrib w h dir x y er eg eb t j := by
  by_cases hc : (x : Int) + t.1 * dir < 0 ∨ (w : Int) ≤ (x : Int) + t.1 * dir ∨
      (y : Int) + t.2.1 < 0 ∨ (h : Int) ≤ (y : Int) + t.2.1
  · rw [tapStep, tapContrib, if_pos hc, if_pos hc, add_zero]
  · rw [tapStep, tapContrib, if_neg hc, if_neg hc]
    by_cases h1 : j = (((y : Int) + t.2.1).toNat * w +
        ((x : Int) + t.1 * dir).toNat) * 3
    · rw [if_pos h1, if_pos h1, h1]
    · rw [if_neg h1, if_neg h1]
      by_cases h2 : j = (((y : Int) + t.2.1).toNat * w +
          ((x : Int) + t.1 * dir).toNat) * 3 + 1
      · rw [if_pos h2, if_pos h2, h2]
      · rw [if_neg h2, if_neg h2]
        by_cases h3 : j = (((y : Int) + t.2.1).toNat * w +
            ((x : Int) + t.1 * dir).toNat) * 3 + 2
        · rw [if_pos h3, if_pos h3, h3]
        · rw [if_neg h3, if_neg h3, add_zero]

theorem distributeErr_apply (w h : Nat) (dir : Int) (x y : Nat)
    (ws : List (Int × Int × ℚ)) (er eg eb : ℚ) (buf : Nat → ℚ) (j : Nat) :
    distributeErr w h dir x y ws er eg eb buf j =
      buf j + (ws.map (fun t => tapContrib w h dir x y er eg eb t j)).sum := by
  induction ws generalizing buf with
  | nil => simp [distributeErr]
  | cons t ts ih =>
    rw [distributeErr, List.foldl_cons]
    rw [show List.foldl (tapStep w h dir x y er eg eb)
        (tapStep w h dir x y er eg eb buf t) ts =
      distributeErr w h dir x y ts er eg eb
        (tapStep w h dir x y er eg eb buf t) from rfl]
    rw [ih, tapStep_apply]
    simp [add_assoc]

/-- The flat red-channel index targeted by tap `t` at pixel (x, y) for a
left-to-right (`dir = 1`) scan, as computed inside `tapStep`. -/
def nIdxAt (w x y : Nat) (t : Int × Int × ℚ) : Nat :=
  (((y : Int) + t.2.1).toNat * w + ((x : Int) + t.1 * 1).toNat) * 3

/-- C8.  Atkinson under-distribution: the `weightsAtk` table of `doDiffusion`
holds exactly the six neighbor taps (dx+1,dy0), (dx+2,dy0), (dx-1,dy+1),
(dx0,dy+1), (dx+1,dy+1), (dx0,dy+2), each weighted 1/8, so the distributed
fraction totals 6/8 — unlike `weightsFS` whose weights 7/16, 3/16, 5/16,
1/16 sum to 1.  Moreover the error distribution realizes the table:
`distributeErr` adds, per tap and per index, exactly the `tapContrib`
amounts (conjunct 4), an in-range tap contributes exactly `er * (its 1/8)`
at its own red-channel target (conjunct 5), and for an interior pixel the
six Atkinson targets are six strictly increasing — hence distinct — buffer
indices (conjunct 6). -/
theorem c8_atkinson_under_distribution :
    weightsAtk = [(1, 0, 1/8), (2, 0, 1/8), (-1, 1, 1/8), (0, 1, 1/8),
      (1, 1, 1/8), (0, 2, 1/8)] ∧
    (weightsAtk.map (fun t => t.2.2)).sum = 6/8 ∧
    (weightsFS.map (fun t => t.2.2)).sum = 1 ∧
    (∀ (w h : Nat) (dir : Int) (x y : Nat) (ws : List (Int × Int × ℚ))
        (er eg eb : ℚ) (buf : Nat → ℚ) (j : Nat),
      distributeErr w h dir x y ws er eg eb buf j =
        buf j + (ws.map (fun t => tapContrib w h dir x y er eg eb t j)).sum) ∧
    (∀ (w h x y : Nat) (er eg eb : ℚ) (t : Int × Int × ℚ),
      ¬((x : Int) + t.1 * 1 < 0 ∨ (w : Int) ≤ (x : Int) + t.1 * 1 ∨
          (y : Int) + t.2.1 < 0 ∨ (h : Int) ≤ (y : Int) + t.2.1) →
      tapContrib w h 1 x y er eg eb t (nIdxAt w x y t) = er * t.2.2) ∧
    (∀ (w x y : Nat), 2 ≤ x → x + 2 < w →
      List.Chain' (· < ·) (weightsAtk.map (nIdxAt w x y))) := by
  refine ⟨rfl, by norm_num [weightsAtk], by norm_num [weightsFS],
    distributeErr_apply, ?_, ?_⟩
  · intro w h x y er eg eb t hin
    rw [tapContrib, if_neg hin, nIdxAt, if_pos rfl]
  · intro w x y hx hw
    have hy0 : ((y : Int) + 0).toNat = y := by omega
    have hy1 : ((y : Int) + 1).toNat = y + 1 := by omega
    have hy2 : ((y : Int) + 2).toNat = y + 2 := by omega
    have hx1 : ((x : Int) + 1 * 1).toNat = x + 1 := by omega
    have hx2 : ((x : Int) + 2 * 1).toNat = x + 2 := by omega
    have hxm : ((x : Int) + (-1) * 1).toNat = x - 1 := by omega
    have hx0 : ((x : Int) + 0 * 1).toNat = x := by omega
    simp only [weightsAtk, nIdxAt, List.map_cons, List.map_nil,
      List.chain'_cons, List.chain'_singleton, and_true, hy0, hy1, hy2,
      hx1, hx2, hxm, hx0]
    have hmul1 : (y + 1) * w = y * w + w := by ring
    have hmul2 : (y + 2) * w = y * w + 2 * w := by ring
    simp only [hmul1, hmul2]
    omega

/-- Witness for C8: the universally quantified conjuncts applied at a
concrete interior pixel (x,y) = (2,0) of an 8x8 frame with unit error. -/
theorem c8_atkinson_under_distribution_witness :
    (distributeErr 8 8 1 2 0 weightsAtk 1 1 1 (fun _ => 0) 9 =
      (fun _ => (0 : ℚ)) 9 + ((weightsAtk.map
        (fun t => tapContrib 8 8 1 2 0 1 1 1 t 9)).sum)) ∧
    (¬((2 : Int) + 1 * 1 < 0 ∨ (8 : Int) ≤ (2 : Int) + 1 * 1 ∨
        (0 : Int) + 0 < 0 ∨ (8 : Int) ≤ (0 : Int) + 0) ∧
      tapContrib 8 8 1 2 0 1 1 1 ((1 : Int), (0 : Int), (1/8 : ℚ))
        (nIdxAt 8 2 0 ((1 : Int), (0 : Int), (1/8 : ℚ))) = 1 * (1/8)) ∧
    (2 ≤ 2 ∧ 2 + 2 < 8 ∧
      List.Chain' (· < ·) (weightsAtk.map (nIdxAt 8 2 0))) := by
  refine ⟨c8_atkinson_under_distribution.2.2.2.1 8 8 1 2 0 weightsAtk 1 1 1
      (fun _ => 0) 9, ⟨by norm_num, ?_⟩, by norm_num, by norm_num,
    c8_atkinson_under_distribution.2.2.2.2.2 8 2 0 (by norm_num)
      (by norm_num)⟩
  exact c8_atkinson_under_distribution.2.2.2.2.1 8 8 2 0 1 1 1
    ((1 : Int), (0 : Int), (1/8 : ℚ)) (by norm_num)

/-! ### C10: the worker ignores ditherAmount -/

/-- A 1x1 mid-gray image used by concrete examples. -/
def grayImg : Image := { width := 1, height := 1, data := [⟨128, 128, 128, 255⟩] }

/-- A black-and-white two-entry palette used by concrete examples. -/
def bwPalette : List RGB := [⟨0, 0, 0⟩, ⟨255, 255, 255⟩]

/-- C10.  The worker's output is independent of `ditherAmount`: two jobs that
differ only in the `ditherAmount` value the submitter put on the message
produce identical results in every mode (the worker-side code never reads
that field) — even though the non-worker `quantizeToPaletteAdvanced` path
demonstrably does scale its ordered perturbation by `ditherAmount` (the
second conjunct exhibits two runs differing only in `ditherAmount` with
different outputs). -/
theorem c10_dither_amount_independence :
    (∀ (okl : ℚ → ℚ → ℚ → ℚ × ℚ × ℚ) (sqrtA : ℚ → ℚ) (job : QuantizeJob)
        (a1 a2 : ℚ),
      onmessageResult okl sqrtA { job with ditherAmount := a1 } =
        onmessageResult okl sqrtA { job with ditherAmount := a2 }) ∧
    quantizeToPaletteAdvanced oklZero grayImg bwPalette
        { distance := DistanceMode.rgb, dithering := DitherMode.ordered4,
          orderedStrength := 1, serpentine := false, ditherAmount := 0 } ≠
      quantizeToPaletteAdvanced oklZero grayImg bwPalette
        { distance := DistanceMode.rgb, dithering := DitherMode.ordered4,
          orderedStrength := 1, serpentine := false, ditherAmount := 1 } := by
  constructor
  · intro okl sqrtA job a1 a2
    cases job
    rfl
  · have h0 : quantizeToPaletteAdvanced oklZero grayImg bwPalette
        { distance := DistanceMode.rgb, dithering := DitherMode.ordered4,
          orderedStrength := 1, serpentine := false, ditherAmount := 0 } =
        { width := 1, height := 1, data := [⟨255, 255, 255, 255⟩] } := by
      norm_num +decide [quantizeToPaletteAdvanced, grayImg, bwPalette,
        nearestPaletteColor, colorDistance, clamp255, M4, List.range_succ]
    have h1 : quantizeToPaletteAdvanced oklZero grayImg bwPalette
        { distance := DistanceMode.rgb, dithering := DitherMode.ordered4,
          orderedStrength := 1, serpentine := false, ditherAmount := 1 } =
        { width := 1, height := 1, data := [⟨0, 0, 0, 255⟩] } := by
      norm_num +decide [quantizeToPaletteAdvanced, grayImg, bwPalette,
        nearestPaletteColor, colorDistance, clamp255, M4, List.range_succ]
    rw [h0, h1]
    simp

/-! ### C2: malformed jobs are not rejected -/

theorem buildPalettePrepared_empty (okl : ℚ → ℚ → ℚ → ℚ × ℚ × ℚ)
    (distance : DistanceMode) :
    buildPalettePrepared okl [] distance = ⟨[], [], [], [], [], [], 0⟩ := by
  cases distance <;> simp [buildPalettePrepared]

theorem noneCell_empty_palette (okl : ℚ → ℚ → ℚ → ℚ × ℚ × ℚ)
    (distance : DistanceMode) (mode : DitherMode) (M : List (List ℚ))
    (size : Nat) (denom strength : ℚ) (w y0 : Nat) (src : List RGBA) :
    ∀ (cl : List (Nat × Nat)) (st : LUT × List RGBA),
      (cl.foldl (noneCell okl (buildPalettePrepared okl [] distance) distance
        mode M size denom strength w y0 src) st).2 =
        st.2 ++ List.replicate cl.length ⟨0, 0, 0, 255⟩ := by
  intro cl
  induction cl with
  | nil => intro st; simp
  | cons yx cl ih =>
    intro st
    rw [List.foldl_cons, ih]
    have hcell : (noneCell okl (buildPalettePrepared okl [] distance) distance
        mode M size denom strength w y0 src st yx).2 =
        st.2 ++ [(⟨0, 0, 0, 255⟩ : RGBA)] := by
      rw [buildPalettePrepared_empty]
      simp [noneCell]
    rw [hcell, List.length_cons, List.replicate_succ]
    simp

theorem coords_length (y0 rows w : Nat) : (coords y0 rows w).length = rows * w :=
  grid_length rows w (fun dy x => (y0 + dy, x))

/-- The strip produced by `doNoneOrOrdered` for a job with an empty palette:
a full well-formed strip of opaque black pixels (`prep.pr[idx]` is an
out-of-range read whose `undefined` is stored as 0), never an error. -/
theorem doNoneOrOrdered_empty_palette (okl : ℚ → ℚ → ℚ → ℚ × ℚ × ℚ)
    (job : QuantizeJob) (hpal : job.palette = []) :
    doNoneOrOrdered okl job =
      List.replicate ((job.yEnd.getD job.height - job.yStart.getD 0) *
        job.width) ⟨0, 0, 0, 255⟩ := by
  obtain ⟨w, h, src, pal, mode, dist, os, serp, ys, ye, cb, da⟩ := job
  dsimp only at hpal
  subst hpal
  show ((coords (ys.getD 0) (ye.getD h - ys.getD 0) w).foldl
      (noneCell okl (buildPalettePrepared okl [] dist) dist mode
        (if mode = DitherMode.ordered4 then M4 else M8)
        (if mode = DitherMode.ordered4 then 4 else 8)
        (if (if mode = DitherMode.ordered4 then 4 else 8) = 4 then 16 else 64)
        (clamp255 (255 * os)) w (ys.getD 0) src)
      (makeLUT (cb.getD 5), [])).2 =
    List.replicate ((ye.getD h - ys.getD 0) * w) ⟨0, 0, 0, 255⟩
  rw [noneCell_empty_palette, coords_length]
  simp

/-- C2 counterexample.  A request with an empty palette is not rejected
anywhere: the fast path returns the input image unchanged, and the worker
handler returns a complete well-formed-looking result (one opaque black
pixel, buffer length = width*height) instead of an error — contradicting
"rejects the request with a descriptive error before any per-pixel work". -/
theorem c2_counterexample :
    quantizeToPaletteAdvancedFast oklZero sqrtZero 4
        { width := 1, height := 1, data := [⟨10, 20, 30, 255⟩] } [] {} =
      { width := 1, height := 1, data := [⟨10, 20, 30, 255⟩] } ∧
    (onmessageResult oklZero sqrtZero
        { width := 1, height := 1, src := [⟨10, 20, 30, 255⟩], palette := []
          mode := DitherMode.none, distance := DistanceMode.rgb
          orderedStrength := 1, serpentine := false, yStart := Option.none
          yEnd := Option.none, cacheBits := Option.none,
          ditherAmount := 1 }).out = [⟨0, 0, 0, 255⟩] ∧
    (onmessageResult oklZero sqrtZero
        { width := 1, height := 1, src := [⟨10, 20, 30, 255⟩], palette := []
          mode := DitherMode.none, distance := DistanceMode.rgb
          orderedStrength := 1, serpentine := false, yStart := Option.none
          yEnd := Option.none, cacheBits := Option.none,
          ditherAmount := 1 }).out.length = 1 * 1 := by
  have hout := doNoneOrOrdered_empty_palette oklZero
    { width := 1, height := 1, src := [⟨10, 20, 30, 255⟩], palette := []
      mode := DitherMode.none, distance := DistanceMode.rgb
      orderedStrength := 1, serpentine := false, yStart := Option.none
      yEnd := Option.none, cacheBits := Option.none, ditherAmount := 1 } rfl
  have hout2 : doNoneOrOrdered oklZero
      { width := 1, height := 1, src := [⟨10, 20, 30, 255⟩], palette := []
        mode := DitherMode.none, distance := DistanceMode.rgb
        orderedStrength := 1, serpentine := false, yStart := Option.none
        yEnd := Option.none, cacheBits := Option.none, ditherAmount := 1 } =
      [(⟨0, 0, 0, 255⟩ : RGBA)] := hout.trans rfl
  refine ⟨by simp [quantizeToPaletteAdvancedFast], ?_, ?_⟩ <;>
    simp [onmessageResult, hout2]

/-- C2 (amended).  No malformed-input validation exists: an empty palette is
not rejected with an error anywhere on the quantization path — both
non-worker entry points return the input image unchanged before any
per-pixel work, and the worker-side `doNoneOrOrdered` happily produces a
full well-formed strip of opaque black pixels.  (Buffer-length mismatches
are likewise never checked; no code path produces an error descriptor.) -/
theorem c2_no_validation :
    (∀ (okl : ℚ → ℚ → ℚ → ℚ × ℚ × ℚ) (sqrtA : ℚ → ℚ) (poolSize : Nat)
        (img : Image) (opts : QuantizeAdvancedOptions),
      quantizeToPaletteAdvancedFast okl sqrtA poolSize img [] opts = img) ∧
    (∀ (okl : ℚ → ℚ → ℚ → ℚ × ℚ × ℚ) (img : Image)
        (opts : QuantizeAdvancedOptions),
      quantizeToPaletteAdvanced okl img [] opts = img) ∧
    (∀ (okl : ℚ → ℚ → ℚ → ℚ × ℚ × ℚ) (job : QuantizeJob),
      job.palette = [] →
      doNoneOrOrdered okl job =
        List.replicate ((job.yEnd.getD job.height - job.yStart.getD 0) *
          job.width) ⟨0, 0, 0, 255⟩) := by
  refine ⟨?_, ?_, fun okl job h => doNoneOrOrdered_empty_palette okl job h⟩
  · intro okl sqrtA poolSize img opts
    simp [quantizeToPaletteAdvancedFast]
  · intro okl img opts
    simp [quantizeToPaletteAdvanced]

/-- The concrete empty-palette job of the C2 witness. -/
def c2Job : QuantizeJob :=
  { width := 2, height := 1, src := [⟨9, 9, 9, 9⟩, ⟨8, 8, 8, 8⟩],
    palette := [], mode := DitherMode.ordered4,
    distance := DistanceMode.oklab, orderedStrength := 1,
    serpentine := true, yStart := Option.none, yEnd := Option.none,
    cacheBits := Option.none, ditherAmount := 1 }

/-- Witness for C2: the empty-palette worker job `c2Job`, run through the
amended statement. -/
theorem c2_no_validation_witness :
    c2Job.palette = [] ∧
    doNoneOrOrdered oklZero c2Job =
      List.replicate ((c2Job.yEnd.getD c2Job.height - c2Job.yStart.getD 0) *
        c2Job.width) ⟨0, 0, 0, 255⟩ :=
  ⟨rfl, c2_no_validation.2.2 oklZero c2Job rfl⟩

/-! ### C7: idempotence on already-quantized input -/

theorem sq3_eq_zero {a b c : ℚ} (h : a * a + b * b + c * c = 0) :
    a = 0 ∧ b = 0 ∧ c = 0 := by
  refine ⟨?_, ?_, ?_⟩ <;> nlinarith [sq_nonneg a, sq_nonneg b, sq_nonneg c,
    mul_self_nonneg a, mul_self_nonneg b, mul_self_nonneg c]

theorem colorDistance_nonneg (okl : ℚ → ℚ → ℚ → ℚ × ℚ × ℚ)
    (aR aG aB bR bG bB : ℚ) (mode : DistanceMode) :
    0 ≤ colorDistance okl aR aG aB bR bG bB mode := by
  cases mode with
  | rgb =>
    simp only [colorDistance, reduceIte]
    nlinarith [mul_self_nonneg (aR - bR), mul_self_nonneg (aG - bG),
      mul_self_nonneg (aB - bB)]
  | oklab =>
    simp only [colorDistance, reduceCtorEq, if_false]
    nlinarith [mul_self_nonneg ((okl aR aG aB).1 - (okl bR bG bB).1),
      mul_self_nonneg ((okl aR aG aB).2.1 - (okl bR bG bB).2.1),
      mul_self_nonneg ((okl aR aG aB).2.2 - (okl bR bG bB).2.2)]

theorem colorDistance_self (okl : ℚ → ℚ → ℚ → ℚ × ℚ × ℚ) (aR aG aB : ℚ)
    (mode : DistanceMode) :
    colorDistance okl aR aG aB aR aG aB mode = 0 := by
  cases mode <;> simp [colorDistance]

/-- The distance scanned by `nearestPaletteColor` at palette index i. -/
def npcDist (okl : ℚ → ℚ → ℚ → ℚ × ℚ × ℚ) (r g b : ℚ) (palette : List RGB)
    (distance : DistanceMode) (i : Nat) : ℚ :=
  colorDistance okl r g b ((palette.getD i ⟨0, 0, 0⟩).r : ℚ)
    ((palette.getD i ⟨0, 0, 0⟩).g : ℚ) ((palette.getD i ⟨0, 0, 0⟩).b : ℚ)
    distance

theorem nearestPaletteColor_eq_scanLoop (okl : ℚ → ℚ → ℚ → ℚ × ℚ × ℚ)
    (r g b : ℚ) (palette : List RGB) (distance : DistanceMode) :
    nearestPaletteColor okl r g b palette distance =
      palette.getD (scanLoop (npcDist okl r g b palette distance)
        palette.length) ⟨0, 0, 0⟩ := rfl

/-- If the query color is itself a palette entry, `nearestPaletteColor`
returns exactly that color (the winning index has distance 0, and a zero
distance forces equal channels — for OKLab under injectivity of the
conversion). -/
theorem nearestPaletteColor_self (okl : ℚ → ℚ → ℚ → ℚ × ℚ × ℚ)
    (hinj : ∀ a1 b1 c1 a2 b2 c2 : ℚ, okl a1 b1 c1 = okl a2 b2 c2 →
      a1 = a2 ∧ b1 = b2 ∧ c1 = c2)
    (palette : List RGB) (distance : DistanceMode) (cr cg cb : Nat)
    (hmem : (⟨cr, cg, cb⟩ : RGB) ∈ palette) :
    nearestPaletteColor okl (cr : ℚ) (cg : ℚ) (cb : ℚ) palette distance =
      ⟨cr, cg, cb⟩ := by
  have hn : 0 < palette.length := List.length_pos_of_mem hmem
  obtain ⟨k, hk, hke⟩ := List.getElem_of_mem hmem
  have hspec := scanLoop_spec (npcDist okl cr cg cb palette distance)
    palette.length hn
  set best := scanLoop (npcDist okl cr cg cb palette distance) palette.length
    with hbest
  obtain ⟨hblt, hmin, _⟩ := hspec
  have hdk : npcDist okl cr cg cb palette distance k = 0 := by
    rw [npcDist, List.getD_eq_getElem _ _ hk, hke]
    exact colorDistance_self okl cr cg cb distance
  have hd0 : npcDist okl cr cg cb palette distance best = 0 :=
    le_antisymm (hdk ▸ hmin k hk) (colorDistance_nonneg okl _ _ _ _ _ _ _)
  rw [nearestPaletteColor_eq_scanLoop, ← hbest]
  set p := palette.getD best ⟨0, 0, 0⟩ with hp
  rw [npcDist] at hd0
  cases distance with
  | rgb =>
    rw [colorDistance, if_pos rfl] at hd0
    obtain ⟨h1, h2, h3⟩ := sq3_eq_zero hd0
    have e1 : cr = p.r := by exact_mod_cast sub_eq_zero.mp h1
    have e2 : cg = p.g := by exact_mod_cast sub_eq_zero.mp h2
    have e3 : cb = p.b := by exact_mod_cast sub_eq_zero.mp h3
    cases hpp : p with
    | mk pr2 pg2 pb2 =>
      rw [hpp] at e1 e2 e3
      simp only at e1 e2 e3
      rw [e1, e2, e3]
  | oklab =>
    rw [colorDistance] at hd0
    simp only [reduceCtorEq, if_false] at hd0
    obtain ⟨h1, h2, h3⟩ := sq3_eq_zero hd0
    have hok : okl (cr : ℚ) (cg : ℚ) (cb : ℚ) =
        okl (p.r : ℚ) (p.g : ℚ) (p.b : ℚ) := by
      have g1 := sub_eq_zero.mp h1
      have g2 := sub_eq_zero.mp h2
      have g3 := sub_eq_zero.mp h3
      exact Prod.ext g1 (Prod.ext g2 g3)
    obtain ⟨e1, e2, e3⟩ := hinj _ _ _ _ _ _ hok
    have f1 : cr = p.r := by exact_mod_cast e1
    have f2 : cg = p.g := by exact_mod_cast e2
    have f3 : cb = p.b := by exact_mod_cast e3
    cases hpp : p with
    | mk pr2 pg2 pb2 =>
      rw [hpp] at f1 f2 f3
      simp only at f1 f2 f3
      rw [f1, f2, f3]

/-- C7 (amended).  Idempotence holds on the non-worker path: for every
non-empty palette and every image all of whose pixel colors are exact
palette entries, `quantizeToPaletteAdvanced` with dithering `'none'` returns
the image unchanged, alpha included (for the OKLab metric this needs the
color conversion to be injective, which the real `rgbToOklab` is).  The
worker strip path is excluded: it forces alpha to 255 (see the
counterexample) and can additionally remap same-LUT-bucket colors. -/
theorem c7_idempotent_advanced (okl : ℚ → ℚ → ℚ → ℚ × ℚ × ℚ)
    (hinj : ∀ a1 b1 c1 a2 b2 c2 : ℚ, okl a1 b1 c1 = okl a2 b2 c2 →
      a1 = a2 ∧ b1 = b2 ∧ c1 = c2)
    (img : Image) (palette : List RGB) (opts : QuantizeAdvancedOptions)
    (hd : opts.dithering = DitherMode.none) (hp : palette ≠ [])
    (hmem : ∀ px ∈ img.data, (⟨px.r, px.g, px.b⟩ : RGB) ∈ palette) :
    quantizeToPaletteAdvanced okl img palette opts = img := by
  rw [quantizeToPaletteAdvanced, if_neg hp, if_pos hd]
  have hmap : img.data.map (fun px =>
      let c := nearestPaletteColor okl (px.r : ℚ) (px.g : ℚ) (px.b : ℚ)
        palette opts.distance
      (⟨c.r, c.g, c.b, px.a⟩ : RGBA)) = img.data := by
    have := List.map_congr_left (l := img.data)
      (f := fun px =>
        let c := nearestPaletteColor okl (px.r : ℚ) (px.g : ℚ) (px.b : ℚ)
          palette opts.distance
        (⟨c.r, c.g, c.b, px.a⟩ : RGBA))
      (g := id) ?_
    · rw [this, List.map_id]
    · intro px hpx
      have hc := nearestPaletteColor_self okl hinj palette opts.distance
        px.r px.g px.b (hmem px hpx)
      simp only [hc, id]
  rw [hmap]

/-- The concrete already-quantized 1x1 job of the C7 counterexample: its one
pixel (5,6,7,alpha=17) is exactly the only palette color. -/
def c7Job : QuantizeJob :=
  { width := 1, height := 1, src := [⟨5, 6, 7, 17⟩], palette := [5, 6, 7],
    mode := DitherMode.none, distance := DistanceMode.rgb,
    orderedStrength := 1, serpentine := false, yStart := Option.none,
    yEnd := Option.none, cacheBits := Option.none, ditherAmount := 1 }

/-- C7 counterexample.  Quantizing an already-palette-colored image with
algorithm `'none'` through the worker path (`doNoneOrOrdered`, cited by the
claim) does not return it unchanged: the output pixel keeps the palette
color but its alpha is forced from 17 to 255. -/
theorem c7_counterexample :
    doNoneOrOrdered oklZero c7Job = [⟨5, 6, 7, 255⟩] ∧
    doNoneOrOrdered oklZero c7Job ≠ c7Job.src := by
  have h : doNoneOrOrdered oklZero c7Job = [⟨5, 6, 7, 255⟩] := by
    norm_num +decide [c7Job, doNoneOrOrdered, coords, noneCell, nearestIdx,
      nearestScan, scanLoop, rgbDistAt, buildPalettePrepared, makeLUT,
      lutStore, lutKey, jsShr, clamp255, List.range_succ]
  refine ⟨h, ?_⟩
  rw [h]
  simp [c7Job]

/-- Witness for C7: the amended idempotence applied to a concrete 1x1 image
over a one-entry palette with the injective identity conversion. -/
theorem c7_idempotent_advanced_witness :
    quantizeToPaletteAdvanced (fun a b c => (a, b, c))
        { width := 1, height := 1, data := [⟨5, 6, 7, 9⟩] } [⟨5, 6, 7⟩]
        { dithering := DitherMode.none } =
      { width := 1, height := 1, data := [⟨5, 6, 7, 9⟩] } :=
  c7_idempotent_advanced (fun a b c => (a, b, c))
    (by
      intro a1 b1 c1 a2 b2 c2 hq
      simpa [Prod.ext_iff] using hq)
    { width := 1, height := 1, data := [⟨5, 6, 7, 9⟩] } [⟨5, 6, 7⟩]
    { dithering := DitherMode.none } rfl (by simp)
    (by intro px hpx; simp at hpx; rw [hpx]; simp)

/-! ### C9: zero-strength ordered dither degenerates to direct nearest match -/

theorem clamp255_cast_byte (n : Nat) (hn : n ≤ 255) :
    clamp255 (n : ℚ) = (n : ℚ) := by
  rw [clamp255, if_neg, if_neg]
  · rw [not_lt]
    exact_mod_cast hn
  · rw [not_lt]
    positivity

theorem noneCell_zero_strength (okl : ℚ → ℚ → ℚ → ℚ × ℚ × ℚ) (prep : Prep)
    (distance : DistanceMode) (modeOrd : DitherMode)
    (hmo : modeOrd = DitherMode.ordered4 ∨ modeOrd = DitherMode.ordered8)
    (M M2 : List (List ℚ)) (size size2 : Nat) (denom denom2 : ℚ)
    (w y0 : Nat) (src : List RGBA)
    (hb : ∀ px ∈ src, px.r ≤ 255 ∧ px.g ≤ 255 ∧ px.b ≤ 255) :
    noneCell okl prep distance modeOrd M size denom 0 w y0 src =
      noneCell okl prep distance DitherMode.none M2 size2 denom2 0 w y0 src := by
  funext st yx
  have hbyte : ∀ j : Nat, (src.getD j ⟨0, 0, 0, 0⟩).r ≤ 255 ∧
      (src.getD j ⟨0, 0, 0, 0⟩).g ≤ 255 ∧ (src.getD j ⟨0, 0, 0, 0⟩).b ≤ 255 := by
    intro j
    rcases Nat.lt_or_ge j src.length with hj | hj
    · rw [List.getD_eq_getElem _ _ hj]
      exact hb _ (List.getElem_mem hj)
    · rw [List.getD_eq_default _ _ hj]
      exact ⟨by decide, by decide, by decide⟩
  obtain ⟨hr, hg, hbb⟩ := hbyte ((yx.1 - y0) * w + yx.2)
  simp only [List.getD_eq_getElem?_getD] at hr hg hbb
  rcases hmo with hmo | hmo <;> subst hmo <;>
  · norm_num +decide [noneCell]
    rw [clamp255_cast_byte _ hr, clamp255_cast_byte _ hg,
      clamp255_cast_byte _ hbb]
    exact ⟨rfl, rfl, rfl, rfl⟩

/-- C9.  Ordered dithering with `orderedStrength = 0`: for every job in mode
`'ordered4'` or `'ordered8'` whose source holds 8-bit channel values, the
worker produces exactly the same strip as the same job in mode `'none'`
(the Bayer perturbation term is zero everywhere). -/
theorem c9_zero_strength_ordered (okl : ℚ → ℚ → ℚ → ℚ × ℚ × ℚ)
    (job : QuantizeJob)
    (hm : job.mode = DitherMode.ordered4 ∨ job.mode = DitherMode.ordered8)
    (hs : job.orderedStrength = 0)
    (hb : ∀ px ∈ job.src, px.r ≤ 255 ∧ px.g ≤ 255 ∧ px.b ≤ 255) :
    doNoneOrOrdered okl job =
      doNoneOrOrdered okl { job with mode := DitherMode.none } := by
  obtain ⟨w, h, src, pal, mode, dist, os, serp, ys, ye, cb, da⟩ := job
  dsimp only at hm hs hb
  subst hs
  have hstrength : clamp255 (255 * 0) = 0 := by norm_num [clamp255]
  rcases hm with hm | hm <;>
  · subst hm
    show ((coords (ys.getD 0) (ye.getD h - ys.getD 0) w).foldl
        (noneCell okl (buildPalettePrepared okl pal dist) dist _ _ _ _
          (clamp255 (255 * 0)) w (ys.getD 0) src)
        (makeLUT (cb.getD 5), [])).2 =
      ((coords (ys.getD 0) (ye.getD h - ys.getD 0) w).foldl
        (noneCell okl (buildPalettePrepared okl pal dist) dist
          DitherMode.none _ _ _ (clamp255 (255 * 0)) w (ys.getD 0) src)
        (makeLUT (cb.getD 5), [])).2
    rw [hstrength, noneCell_zero_strength okl _ dist _ (by simp) _ _ _ _ _ _ w
      (ys.getD 0) src hb]

/-- The concrete zero-strength ordered job of the C9 witness. -/
def c9Job : QuantizeJob :=
  { width := 1, height := 1, src := [⟨100, 150, 200, 255⟩],
    palette := [0, 0, 0, 255, 255, 255], mode := DitherMode.ordered4,
    distance := DistanceMode.rgb, orderedStrength := 0, serpentine := false,
    yStart := Option.none, yEnd := Option.none, cacheBits := Option.none,
    ditherAmount := 1 }

/-- Witness for C9: the zero-strength equivalence at a concrete job. -/
theorem c9_zero_strength_ordered_witness :
    (c9Job.mode = DitherMode.ordered4 ∨ c9Job.mode = DitherMode.ordered8) ∧
    c9Job.orderedStrength = 0 ∧
    (∀ px ∈ c9Job.src, px.r ≤ 255 ∧ px.g ≤ 255 ∧ px.b ≤ 255) ∧
    doNoneOrOrdered oklZero c9Job =
      doNoneOrOrdered oklZero { c9Job with mode := DitherMode.none } :=
  ⟨Or.inl rfl, rfl, by intro px hpx; simp [c9Job] at hpx; rw [hpx]; exact
    ⟨by norm_num, by norm_num, by norm_num⟩,
   c9_zero_strength_ordered oklZero c9Job (Or.inl rfl) rfl
     (by intro px hpx; simp [c9Job] at hpx; rw [hpx]; exact
       ⟨by norm_num, by norm_num, by norm_num⟩)⟩

/-! ### C4: alpha-aware block averaging -/

theorem blockFold (L : List RGBA) :
    ∀ acc : BlockAcc,
      L.foldl blockStep acc =
        ⟨acc.rSum + ((L.filter (fun px => 128 ≤ px.a)).map
            (fun px => px.r)).sum,
          acc.gSum + ((L.filter (fun px => 128 ≤ px.a)).map
            (fun px => px.g)).sum,
          acc.bSum + ((L.filter (fun px => 128 ≤ px.a)).map
            (fun px => px.b)).sum,
          acc.aSum + ((L.filter (fun px => 128 ≤ px.a)).map
            (fun px => px.a)).sum,
          acc.count + (L.filter (fun px => 128 ≤ px.a)).length,
          acc.transp + (L.filter (fun px => !(128 ≤ px.a : Bool))).length⟩ := by
  induction L with
  | nil => intro acc; simp
  | cons px L ih =>
    intro acc
    rw [List.foldl_cons, ih]
    by_cases hpa : 128 ≤ px.a
    · rw [List.filter_cons_of_pos (by simpa using hpa),
        List.filter_cons_of_neg (by simpa using hpa)]
      simp [blockStep, hpa]
      constructor <;> omega
    · rw [List.filter_cons_of_neg (by simpa using hpa),
        List.filter_cons_of_pos (by simpa using hpa)]
      simp [blockStep, hpa]
      omega

/-- The alpha-aware block policy, in the words of the specification: average
only the pixels with alpha at or above the 128 threshold over all four
channels (the output alpha being the mean of the included pixels' alphas),
and emit fully transparent (0,0,0,0) exactly when no pixel qualifies. -/
def alphaAwareBlockSpec (block : List RGBA) : RGBA :=
  let included := block.filter (fun px => 128 ≤ px.a)
  if included.length = 0 then ⟨0, 0, 0, 0⟩
  else
    ⟨jsRound ((((included.map (fun px => px.r)).sum : ℕ) : ℚ) /
        (included.length : ℚ)),
     jsRound ((((included.map (fun px => px.g)).sum : ℕ) : ℚ) /
        (included.length : ℚ)),
     jsRound ((((included.map (fun px => px.b)).sum : ℕ) : ℚ) /
        (included.length : ℚ)),
     jsRound ((((included.map (fun px => px.a)).sum : ℕ) : ℚ) /
        (included.length : ℚ))⟩

theorem rebuildBlock_eq_spec (data : List RGBA) (w x0 y0 sX sY bx byIdx : Nat) :
    (rebuildBlock data w x0 y0 sX sY bx byIdx).1 =
      alphaAwareBlockSpec
        (blockPixels data w (x0 + bx * sX) (y0 + byIdx * sY) sX sY) := by
  rw [rebuildBlock, blockFold, alphaAwareBlockSpec]
  by_cases hc :
      ((blockPixels data w (x0 + bx * sX) (y0 + byIdx * sY) sX sY).filter
        (fun px => 128 ≤ px.a)).length = 0
  · simp [hc]
  · simp only [Nat.zero_add]
    rw [if_pos (by omega), if_neg hc]

theorem nat_mul_length_le_sum (l : List Nat) (c : Nat) (h : ∀ x ∈ l, c ≤ x) :
    c * l.length ≤ l.sum := by
  induction l with
  | nil => simp
  | cons x l ih =>
    rw [List.length_cons, List.sum_cons, Nat.mul_succ]
    have hx := h x (List.mem_cons_self x l)
    have hl := ih (fun y hy => h y (List.mem_cons_of_mem x hy))
    omega

theorem jsRound_ge_of_ge (q : ℚ) (c : Nat) (h : (c : ℚ) ≤ q) :
    c ≤ jsRound q := by
  rw [jsRound]
  have hfl : (c : Int) ≤ ⌊q + 0.5⌋ := by
    rw [Int.le_floor]
    push_cast
    linarith
  omega

theorem rebuildBase_getD (img : Image) (sX sY dX dY byIdx bx : Nat)
    (hby : byIdx < (img.height - dY) / sY)
    (hbx : bx < (img.width - dX) / sX) :
    (rebuildBase img sX sY dX dY).baseImageData.data.getD
        (byIdx * ((img.width - dX) / sX) + bx) ⟨0, 0, 0, 0⟩ =
      (rebuildBlock img.data img.width dX dY sX sY bx byIdx).1 := by
  simp only [rebuildBase]
  rw [List.map_flatMap]
  have hmm : ∀ byI : Nat,
      ((List.range ((img.width - dX) / sX)).map
        (fun bx2 => rebuildBlock img.data img.width dX dY sX sY bx2 byI)).map
          (fun c => c.1) =
      (List.range ((img.width - dX) / sX)).map
        (fun bx2 => (rebuildBlock img.data img.width dX dY sX sY bx2 byI).1) := by
    intro byI
    rw [List.map_map]
    rfl
  simp only [hmm]
  exact grid_getD _ _ _ _
    (fun byI bx2 => (rebuildBlock img.data img.width dX dY sX sY bx2 byI).1)
    _ hby hbx

/-- C4.  Alpha-aware block averaging: every output pixel of `rebuildBase` is
the rounded arithmetic mean over only those pixels of its block whose alpha
is at least 128 (below-threshold pixels are excluded from all four channel
averages, and the output alpha is the mean of the included alphas), and a
block is written fully transparent (0,0,0,0) exactly when every pixel of the
block is below the threshold. -/
theorem c4_alpha_aware_rebuild (img : Image) (sX sY dX dY byIdx bx : Nat)
    (hby : byIdx < (img.height - dY) / sY)
    (hbx : bx < (img.width - dX) / sX) :
    (rebuildBase img sX sY dX dY).baseImageData.data.getD
        (byIdx * ((img.width - dX) / sX) + bx) ⟨0, 0, 0, 0⟩ =
      alphaAwareBlockSpec (blockPixels img.data img.width (dX + bx * sX)
        (dY + byIdx * sY) sX sY) ∧
    ((∀ px ∈ blockPixels img.data img.width (dX + bx * sX) (dY + byIdx * sY)
        sX sY, px.a < 128) ↔
      (rebuildBase img sX sY dX dY).baseImageData.data.getD
        (byIdx * ((img.width - dX) / sX) + bx) ⟨0, 0, 0, 0⟩ = ⟨0, 0, 0, 0⟩) := by
  have h1 := rebuildBase_getD img sX sY dX dY byIdx bx hby hbx
  rw [h1, rebuildBlock_eq_spec]
  refine ⟨rfl, ?_, ?_⟩
  · intro hall
    rw [alphaAwareBlockSpec]
    rw [if_pos]
    rw [List.length_eq_zero, List.filter_eq_nil_iff]
    intro px hpx
    simpa using Nat.not_le.mpr (hall px hpx)
  · intro hout
    intro px hpx
    by_contra h128
    rw [Nat.not_lt] at h128
    set block := blockPixels img.data img.width (dX + bx * sX)
      (dY + byIdx * sY) sX sY with hblock
    set included := block.filter (fun px => 128 ≤ px.a) with hincl
    have hpxin : px ∈ included := by
      rw [hincl, List.mem_filter]
      exact ⟨hpx, by simpa using h128⟩
    have hlen : included.length ≠ 0 := by
      intro h0
      rw [List.length_eq_zero] at h0
      rw [h0] at hpxin
      exact List.not_mem_nil px hpxin
    rw [alphaAwareBlockSpec] at hout
    rw [if_neg hlen] at hout
    have halpha : jsRound ((((included.map (fun px => px.a)).sum : ℕ) : ℚ) /
        (included.length : ℚ)) = 0 := congrArg RGBA.a hout
    have hsum : 128 * included.length ≤
        ((included.map (fun px => px.a)).sum : ℕ) := by
      have := nat_mul_length_le_sum (included.map (fun px => px.a)) 128 ?_
      · simpa using this
      · intro v hv
        obtain ⟨q, hq, hqe⟩ := List.mem_map.mp hv
        rw [hincl, List.mem_filter] at hq
        have := hq.2
        simp at this
        omega
    have hq128 : (128 : ℚ) ≤
        (((included.map (fun px => px.a)).sum : ℕ) : ℚ) /
          (included.length : ℚ) := by
      rw [le_div_iff₀ (by exact_mod_cast Nat.pos_of_ne_zero hlen)]
      exact_mod_cast hsum
    have := jsRound_ge_of_ge _ 128 hq128
    omega

/-- The concrete 2x1 image of the C4 witness: one 2x1 block whose left pixel
is opaque enough (alpha 200) and whose right pixel is nearly transparent
(alpha 10). -/
def c4Img : Image :=
  { width := 2, height := 1, data := [⟨10, 20, 30, 200⟩, ⟨50, 60, 70, 10⟩] }

/-- Witness for C4: the alpha-aware average of the single block of `c4Img`. -/
theorem c4_alpha_aware_rebuild_witness :
    ((0 : Nat) < (c4Img.height - 0) / 1 ∧ (0 : Nat) < (c4Img.width - 0) / 2) ∧
    ((rebuildBase c4Img 2 1 0 0).baseImageData.data.getD
        (0 * ((c4Img.width - 0) / 2) + 0) ⟨0, 0, 0, 0⟩ =
      alphaAwareBlockSpec (blockPixels c4Img.data c4Img.width (0 + 0 * 2)
        (0 + 0 * 1) 2 1) ∧
    ((∀ px ∈ blockPixels c4Img.data c4Img.width (0 + 0 * 2) (0 + 0 * 1) 2 1,
        px.a < 128) ↔
      (rebuildBase c4Img 2 1 0 0).baseImageData.data.getD
        (0 * ((c4Img.width - 0) / 2) + 0) ⟨0, 0, 0, 0⟩ = ⟨0, 0, 0, 0⟩)) :=
  ⟨⟨by norm_num [c4Img], by norm_num [c4Img]⟩,
   c4_alpha_aware_rebuild c4Img 2 1 0 0 0 0 (by norm_num [c4Img])
     (by norm_num [c4Img])⟩

/-! ### C3: detectAxis bounds, minimality and returned ratio -/

/-- The boundary positions of a signal of length n for candidate (s, d), in
the words of the specification. -/
def boundaryIdx (s d n : Nat) : List Nat :=
  (List.range n).filter (fun i => isBoundary s d i)

/-- The non-boundary positions of a signal of length n for candidate (s, d). -/
def nonBoundaryIdx (s d n : Nat) : List Nat :=
  (List.range n).filter (fun i => !(isBoundary s d i))

theorem evalFold (diff : List ℚ) (s d : Nat) :
    ∀ (cl : List Nat) (a : ℚ × Nat × ℚ × Nat),
      cl.foldl (evalStep diff s d) a =
        (a.1 + ((cl.filter (fun i => !(isBoundary s d i))).map
            (fun i => diff.getD i 0)).sum,
         a.2.1 + (cl.filter (fun i => !(isBoundary s d i))).length,
         a.2.2.1 + ((cl.filter (fun i => isBoundary s d i)).map
            (fun i => diff.getD i 0)).sum,
         a.2.2.2 + (cl.filter (fun i => isBoundary s d i)).length) := by
  intro cl
  induction cl with
  | nil => intro a; simp
  | cons i cl ih =>
    intro a
    rw [List.foldl_cons, ih]
    by_cases hbi : isBoundary s d i
    · rw [List.filter_cons_of_neg (by simpa using hbi),
        List.filter_cons_of_pos (by simpa using hbi)]
      simp [evalStep, hbi]
      constructor <;> ring
    · rw [List.filter_cons_of_pos (by simpa using hbi),
        List.filter_cons_of_neg (by simpa using hbi)]
      simp [evalStep, hbi]
      constructor <;> ring

/-- `evaluateScaleOffset1D` computes exactly the specification's boundary /
non-boundary means and their ratio. -/
theorem evaluateScaleOffset1D_spec (diff : List ℚ) (s d : Nat) :
    (evaluateScaleOffset1D diff s d).nonMean =
      (if (nonBoundaryIdx s d diff.length).length = 0 then (⊤ : WithTop ℚ)
       else ((((nonBoundaryIdx s d diff.length).map
          (fun i => diff.getD i 0)).sum /
          ((nonBoundaryIdx s d diff.length).length : ℚ) : ℚ) : WithTop ℚ)) ∧
    (evaluateScaleOffset1D diff s d).bMean =
      (if (boundaryIdx s d diff.length).length = 0 then (1e-6 : ℚ)
       else ((boundaryIdx s d diff.length).map (fun i => diff.getD i 0)).sum /
         ((boundaryIdx s d diff.length).length : ℚ)) ∧
    (evaluateScaleOffset1D diff s d).ratioQ =
      (evaluateScaleOffset1D diff s d).nonMean.map
        (fun nm => nm / ((evaluateScaleOffset1D diff s d).bMean + 1e-6)) := by
  rw [evaluateScaleOffset1D]
  rw [evalFold]
  simp only [Nat.zero_add, zero_add]
  refine ⟨rfl, rfl, ?_⟩
  trivial

/-- The recomputed score of the running best (`best.ratio - 0.05*log(1+best.bound)`). -/
def axisScoreOf (logA : ℚ → ℚ) (b : AxisBest) : WithTop ℚ :=
  axisScore logA b.ratioQ b.bound

theorem axisFold_spec (logA : ℚ → ℚ) (diff : List ℚ) :
    ∀ (cl : List (Nat × Nat)) (b0 : AxisBest),
      axisScoreOf logA (cl.foldl (axisStep logA diff) b0) ≤
          axisScoreOf logA b0 ∧
      (∀ sd ∈ cl, axisScoreOf logA (cl.foldl (axisStep logA diff) b0) ≤
          axisScoreOf logA (mkAxisBest diff sd)) ∧
      (cl.foldl (axisStep logA diff) b0 = b0 ∨
        ∃ sd ∈ cl, cl.foldl (axisStep logA diff) b0 = mkAxisBest diff sd) := by
  intro cl
  induction cl with
  | nil => intro b0; simp
  | cons sd0 cl ih =>
    intro b0
    rw [List.foldl_cons]
    obtain ⟨ih1, ih2, ih3⟩ := ih (axisStep logA diff b0 sd0)
    have hstep : axisScoreOf logA (axisStep logA diff b0 sd0) ≤
        axisScoreOf logA b0 ∧
        axisScoreOf logA (axisStep logA diff b0 sd0) ≤
          axisScoreOf logA (mkAxisBest diff sd0) ∧
        (axisStep logA diff b0 sd0 = b0 ∨
          axisStep logA diff b0 sd0 = mkAxisBest diff sd0) := by
      rw [axisStep]
      by_cases hlt : axisScore logA (evaluateScaleOffset1D diff sd0.1 sd0.2).ratioQ
          (evaluateScaleOffset1D diff sd0.1 sd0.2).bMean <
          axisScore logA b0.ratioQ b0.bound
      · rw [if_pos hlt]
        exact ⟨le_of_lt hlt, le_refl _, Or.inr rfl⟩
      · rw [if_neg hlt]
        exact ⟨le_refl _, le_of_not_lt hlt, Or.inl rfl⟩
    refine ⟨le_trans ih1 hstep.1, ?_, ?_⟩
    · intro sd hsd
      rcases List.mem_cons.mp hsd with h | h
      · subst h
        exact le_trans ih1 hstep.2.1
      · exact ih2 sd h
    · rcases ih3 with h | ⟨sd, hsd, he⟩
      · rw [h]
        rcases hstep.2.2 with h2 | h2
        · exact Or.inl h2
        · exact Or.inr ⟨sd0, List.mem_cons_self _ _, h2⟩
      · exact Or.inr ⟨sd, List.mem_cons_of_mem _ hsd, he⟩

theorem mem_axisCandidates (maxS : Nat) (sd : Nat × Nat) :
    sd ∈ axisCandidates maxS ↔ 2 ≤ sd.1 ∧ sd.1 ≤ maxS ∧ sd.2 < sd.1 := by
  constructor
  · intro h
    simp only [axisCandidates, List.mem_flatMap, List.mem_map,
      List.mem_range'_1, List.mem_range] at h
    obtain ⟨s, ⟨hs1, hs2⟩, d, hd, he⟩ := h
    rw [← he]
    exact ⟨hs1, by omega, hd⟩
  · intro ⟨h1, h2, h3⟩
    simp only [axisCandidates, List.mem_flatMap, List.mem_map,
      List.mem_range'_1, List.mem_range]
    exact ⟨sd.1, ⟨h1, by omega⟩, sd.2, h3, rfl⟩

theorem axisScore_two_zero_lt_top (logA : ℚ → ℚ) (diff : List ℚ)
    (hne : diff ≠ []) :
    axisScore logA (evaluateScaleOffset1D diff 2 0).ratioQ
      (evaluateScaleOffset1D diff 2 0).bMean < ⊤ := by
  have hn : 0 < diff.length := List.length_pos.mpr hne
  have h0mem : 0 ∈ nonBoundaryIdx 2 0 diff.length := by
    rw [nonBoundaryIdx, List.mem_filter]
    exact ⟨List.mem_range.mpr hn, by decide⟩
  have hlen : (nonBoundaryIdx 2 0 diff.length).length ≠ 0 := by
    intro h
    rw [List.length_eq_zero] at h
    rw [h] at h0mem
    exact List.not_mem_nil _ h0mem
  obtain ⟨hnm, _, hr⟩ := evaluateScaleOffset1D_spec diff 2 0
  rw [hr, hnm, if_neg hlen, axisScore, WithTop.map_coe, WithTop.map_coe]
  exact WithTop.coe_lt_top _

/-- C3 (amended).  For every nonempty non-negative difference signal, every
`maxS >= 2` and any model `logA` of `Math.log`, `detectAxis` returns a pair
(s, d) with `2 <= s <= maxS` and `d < s` that minimizes the score
`ratio - 0.05*log(1+boundaryMean)` over all candidates, and the returned
`ratio`, `non` and `bound` fields are exactly the evaluation of the chosen
(s, d); moreover `evaluateScaleOffset1D` computes precisely the boundary /
non-boundary means described by the specification
(`evaluateScaleOffset1D_spec` conjunct).  (The non-negativity hypothesis
pins the domain on which the `ℚ` model agrees with IEEE arithmetic: real
difference signals are sums of absolute differences.) -/
theorem c3_detect_axis (logA : ℚ → ℚ) (diff : List ℚ) (maxS : Nat)
    (hmax : 2 ≤ maxS) (hne : diff ≠ []) (hpos : ∀ v ∈ diff, 0 ≤ v) :
    (2 ≤ (detectAxis logA diff maxS).s ∧
      (detectAxis logA diff maxS).s ≤ maxS ∧
      (detectAxis logA diff maxS).d < (detectAxis logA diff maxS).s) ∧
    (∀ sd ∈ axisCandidates maxS,
      axisScoreOf logA (detectAxis logA diff maxS) ≤
        axisScoreOf logA (mkAxisBest diff sd)) ∧
    ((detectAxis logA diff maxS).ratioQ =
      (evaluateScaleOffset1D diff (detectAxis logA diff maxS).s
        (detectAxis logA diff maxS).d).ratioQ ∧
     (detectAxis logA diff maxS).non =
      (evaluateScaleOffset1D diff (detectAxis logA diff maxS).s
        (detectAxis logA diff maxS).d).nonMean ∧
     (detectAxis logA diff maxS).bound =
      (evaluateScaleOffset1D diff (detectAxis logA diff maxS).s
        (detectAxis logA diff maxS).d).bMean) := by
  obtain ⟨h1, h2, h3⟩ := axisFold_spec logA diff (axisCandidates maxS)
    { s := 1, d := 0, ratioQ := ⊤, non := 0, bound := 0 }
  have hda : detectAxis logA diff maxS =
      (axisCandidates maxS).foldl (axisStep logA diff)
        { s := 1, d := 0, ratioQ := ⊤, non := 0, bound := 0 } := rfl
  have h20 : ((2 : Nat), (0 : Nat)) ∈ axisCandidates maxS :=
    (mem_axisCandidates maxS (2, 0)).mpr ⟨le_refl 2, hmax, by omega⟩
  have hfin : axisScoreOf logA (mkAxisBest diff (2, 0)) < ⊤ :=
    axisScore_two_zero_lt_top logA diff hne
  rcases h3 with hinit | ⟨sd, hsd, he⟩
  · exfalso
    have hle := h2 (2, 0) h20
    rw [hinit] at hle
    have : (⊤ : WithTop ℚ) < ⊤ := lt_of_le_of_lt hle hfin
    exact lt_irrefl _ this
  · obtain ⟨hs2, hsm, hds⟩ := (mem_axisCandidates maxS sd).mp hsd
    rw [hda, he]
    refine ⟨⟨hs2, hsm, hds⟩, ?_, rfl, rfl, rfl⟩
    intro sd2 hsd2
    have := h2 sd2 hsd2
    rw [he] at this
    exact this

/-- C3 counterexample.  On the empty difference signal (a 1-pixel-wide image
has an empty `diffX`) with `maxS = 2`, `detectAxis` never finds a finite
score, so it returns its initial record with `s = 1` — violating the claimed
bound `2 <= s <= maxS`. -/
theorem c3_counterexample : (detectAxis logZero [] 2).s = 1 := by
  have hstep : ∀ (b : AxisBest) (sd : Nat × Nat),
      axisStep logZero [] b sd = b := by
    intro b sd
    rw [axisStep, if_neg]
    intro hlt
    have hre : (evaluateScaleOffset1D [] sd.1 sd.2).ratioQ = ⊤ := by
      rw [evaluateScaleOffset1D]
      simp
    rw [hre, axisScore, WithTop.map_top] at hlt
    exact not_top_lt hlt
  have hc : axisCandidates 2 = [(2, 0), (2, 1)] := rfl
  rw [detectAxis, hc, List.foldl_cons, List.foldl_cons, List.foldl_nil,
    hstep, hstep]

/-- Witness for C3: the amended theorem at the concrete signal [5, 1] with
maxS = 2. -/
theorem c3_detect_axis_witness :
    ((2 : Nat) ≤ 2 ∧ ([(5 : ℚ), 1] ≠ []) ∧ (∀ v ∈ [(5 : ℚ), 1], 0 ≤ v)) ∧
    ((2 ≤ (detectAxis logZero [5, 1] 2).s ∧
      (detectAxis logZero [5, 1] 2).s ≤ 2 ∧
      (detectAxis logZero [5, 1] 2).d < (detectAxis logZero [5, 1] 2).s) ∧
    (∀ sd ∈ axisCandidates 2,
      axisScoreOf logZero (detectAxis logZero [5, 1] 2) ≤
        axisScoreOf logZero (mkAxisBest [5, 1] sd)) ∧
    ((detectAxis logZero [5, 1] 2).ratioQ =
      (evaluateScaleOffset1D [5, 1] (detectAxis logZero [5, 1] 2).s
        (detectAxis logZero [5, 1] 2).d).ratioQ ∧
     (detectAxis logZero [5, 1] 2).non =
      (evaluateScaleOffset1D [5, 1] (detectAxis logZero [5, 1] 2).s
        (detectAxis logZero [5, 1] 2).d).nonMean ∧
     (detectAxis logZero [5, 1] 2).bound =
      (evaluateScaleOffset1D [5, 1] (detectAxis logZero [5, 1] 2).s
        (detectAxis logZero [5, 1] 2).d).bMean)) :=
  ⟨⟨by norm_num, by simp, by norm_num⟩,
   c3_detect_axis logZero [5, 1] 2 (by norm_num) (by simp) (by norm_num)⟩

/-! ### C1: strip-parallel correctness of mode 'none' -/

/-- The output pixel written for palette index i (`prep` channels, alpha 255). -/
def outOf (prep : Prep) (i : Nat) : RGBA :=
  ⟨prep.pr.getD i 0, prep.pg.getD i 0, prep.pb.getD i 0, 255⟩

/-- The per-pixel body of mode-`'none'` processing, as a function of the
pixel itself (the mode-`'none'` `noneCell` reads the source only through the
strip-local index). -/
def noneStep (okl : ℚ → ℚ → ℚ → ℚ × ℚ × ℚ) (prep : Prep)
    (distance : DistanceMode) (st : LUT × List RGBA) (px : RGBA) :
    LUT × List RGBA :=
  let res := nearestIdx okl (px.r : ℚ) (px.g : ℚ) (px.b : ℚ) prep distance
    (Option.some st.1)
  (res.2.getD st.1, st.2 ++ [outOf prep res.1])

/-- Cache soundness relative to a set `S` of pixels: every resolved entry
agrees with the full scan of every pixel of `S` that falls into its bucket. -/
def LutGood (okl : ℚ → ℚ → ℚ → ℚ × ℚ × ℚ) (prep : Prep)
    (distance : DistanceMode) (S : List RGBA) (l : LUT) : Prop :=
  ∀ k v, l.tbl k = Option.some v → ∀ p ∈ S,
    lutKey l.bits (p.r : ℚ) (p.g : ℚ) (p.b : ℚ) = k →
    nearestScan okl (p.r : ℚ) (p.g : ℚ) (p.b : ℚ) prep distance = v

/-- Bucket-consistency of a pixel set `S`: any two pixels of `S` sharing a
LUT key have the same full-scan nearest index. -/
def BucketConsistent (okl : ℚ → ℚ → ℚ → ℚ × ℚ × ℚ) (prep : Prep)
    (distance : DistanceMode) (bits : Nat) (S : List RGBA) : Prop :=
  ∀ p ∈ S, ∀ q ∈ S,
    lutKey bits (p.r : ℚ) (p.g : ℚ) (p.b : ℚ) =
      lutKey bits (q.r : ℚ) (q.g : ℚ) (q.b : ℚ) →
    nearestScan okl (p.r : ℚ) (p.g : ℚ) (p.b : ℚ) prep distance =
      nearestScan okl (q.r : ℚ) (q.g : ℚ) (q.b : ℚ) prep distance

theorem noneFold_map (okl : ℚ → ℚ → ℚ → ℚ × ℚ × ℚ) (prep : Prep)
    (distance : DistanceMode) (bits : Nat) (S : List RGBA)
    (hH : BucketConsistent okl prep distance bits S) :
    ∀ (l : List RGBA) (lut : LUT) (acc : List RGBA),
      (∀ p ∈ l, p ∈ S) → lut.bits = bits →
      LutGood okl prep distance S lut →
      (l.foldl (noneStep okl prep distance) (lut, acc)).2 =
        acc ++ l.map (fun px =>
          outOf prep (nearestScan okl (px.r : ℚ) (px.g : ℚ) (px.b : ℚ)
            prep distance)) ∧
      (l.foldl (noneStep okl prep distance) (lut, acc)).1.bits = bits ∧
      LutGood okl prep distance S
        (l.foldl (noneStep okl prep distance) (lut, acc)).1 := by
  intro l
  induction l with
  | nil =>
    intro lut acc _ hb hgood
    exact ⟨by simp, hb, hgood⟩
  | cons px l ih =>
    intro lut acc hmem hb hgood
    rw [List.foldl_cons]
    have hpxS : px ∈ S := hmem px (List.mem_cons_self _ _)
    have hmem' : ∀ p ∈ l, p ∈ S := fun p hp =>
      hmem p (List.mem_cons_of_mem _ hp)
    cases htbl : lut.tbl (lutKey lut.bits (px.r : ℚ) (px.g : ℚ) (px.b : ℚ))
      with
    | some c =>
      have hscan : nearestScan okl (px.r : ℚ) (px.g : ℚ) (px.b : ℚ) prep
          distance = c := hgood _ c htbl px hpxS rfl
      have hstep : noneStep okl prep distance (lut, acc) px =
          (lut, acc ++ [outOf prep (nearestScan okl (px.r : ℚ) (px.g : ℚ)
            (px.b : ℚ) prep distance)]) := by
        rw [noneStep, nearestIdx, htbl, hscan]
        rfl
      rw [hstep]
      obtain ⟨h1, h2, h3⟩ := ih lut _ hmem' hb hgood
      refine ⟨?_, h2, h3⟩
      rw [h1, List.map_cons, List.append_assoc, List.singleton_append]
    | none =>
      set scanv := nearestScan okl (px.r : ℚ) (px.g : ℚ) (px.b : ℚ) prep
        distance with hscanv
      have hstep : noneStep okl prep distance (lut, acc) px =
          (lutStore lut (lutKey lut.bits (px.r : ℚ) (px.g : ℚ) (px.b : ℚ))
            scanv, acc ++ [outOf prep scanv]) := by
        rw [noneStep, nearestIdx, htbl]
        rfl
      rw [hstep]
      have hb2 : (lutStore lut
          (lutKey lut.bits (px.r : ℚ) (px.g : ℚ) (px.b : ℚ)) scanv).bits =
          bits := hb
      have hgood2 : LutGood okl prep distance S
          (lutStore lut (lutKey lut.bits (px.r : ℚ) (px.g : ℚ) (px.b : ℚ))
            scanv) := by
        intro k v hkv p hpS hkey
        rw [lutStore] at hkv
        dsimp only at hkv
        rw [lutStore] at hkey
        dsimp only at hkey
        by_cases hk : k = lutKey lut.bits (px.r : ℚ) (px.g : ℚ) (px.b : ℚ)
        · rw [if_pos hk] at hkv
          have hv : v = scanv := by
            injection hkv with h
            exact h.symm
          subst hv
          subst hk
          rw [hscanv]
          rw [← hb] at hH
          exact hH p hpS px hpxS hkey
        · rw [if_neg hk] at hkv
          exact hgood k v hkv p hpS hkey
      obtain ⟨h1, h2, h3⟩ := ih _ _ hmem' hb2 hgood2
      refine ⟨?_, h2, h3⟩
      rw [h1, List.map_cons, List.append_assoc, List.singleton_append, hscanv]

theorem noneCell_eq_noneStep (okl : ℚ → ℚ → ℚ → ℚ × ℚ × ℚ) (prep : Prep)
    (distance : DistanceMode) (M : List (List ℚ)) (size : Nat)
    (denom strength : ℚ) (w y0 : Nat) (src : List RGBA)
    (st : LUT × List RGBA) (yx : Nat × Nat) :
    noneCell okl prep distance DitherMode.none M size denom strength w y0 src
        st yx =
      noneStep okl prep distance st
        (src.getD ((yx.1 - y0) * w + yx.2) ⟨0, 0, 0, 0⟩) := by
  rw [noneCell, noneStep]
  norm_num +decide [outOf]

theorem coords_map_index (y0 rows w : Nat) :
    (coords y0 rows w).map (fun yx => (yx.1 - y0) * w + yx.2) =
      List.range (rows * w) := by
  rw [coords, List.map_flatMap, range_mul_grid]
  congr 1
  funext dy
  rw [List.map_map]
  apply List.map_congr_left
  intro x _
  simp [Nat.add_sub_cancel_left]

theorem doNoneOrOrdered_none_eq (okl : ℚ → ℚ → ℚ → ℚ × ℚ × ℚ)
    (job : QuantizeJob) (hmode : job.mode = DitherMode.none)
    (hlen : job.src.length =
      (job.yEnd.getD job.height - job.yStart.getD 0) * job.width) :
    doNoneOrOrdered okl job =
      (job.src.foldl
        (noneStep okl (buildPalettePrepared okl job.palette job.distance)
          job.distance)
        (makeLUT (job.cacheBits.getD 5), [])).2 := by
  obtain ⟨w, h, src, pal, mode, dist, os, serp, ys, ye, cb, da⟩ := job
  dsimp only at hmode hlen ⊢
  subst hmode
  show ((coords (ys.getD 0) (ye.getD h - ys.getD 0) w).foldl
      (noneCell okl (buildPalettePrepared okl pal dist) dist DitherMode.none
        M8 8 64 (clamp255 (255 * os)) w (ys.getD 0) src)
      (makeLUT (cb.getD 5), [])).2 = _
  have hfun : noneCell okl (buildPalettePrepared okl pal dist) dist
      DitherMode.none M8 8 64 (clamp255 (255 * os)) w (ys.getD 0) src =
      fun st yx => noneStep okl (buildPalettePrepared okl pal dist) dist st
        (src.getD ((yx.1 - ys.getD 0) * w + yx.2) ⟨0, 0, 0, 0⟩) :=
    funext fun st => funext fun yx =>
      noneCell_eq_noneStep okl _ dist M8 8 64 (clamp255 (255 * os)) w
        (ys.getD 0) src st yx
  rw [hfun]
  have h1 : (coords (ys.getD 0) (ye.getD h - ys.getD 0) w).foldl
      (fun st yx => noneStep okl (buildPalettePrepared okl pal dist) dist st
        (src.getD ((yx.1 - ys.getD 0) * w + yx.2) ⟨0, 0, 0, 0⟩))
      (makeLUT (cb.getD 5), ([] : List RGBA)) =
    ((coords (ys.getD 0) (ye.getD h - ys.getD 0) w).map
        (fun yx => (yx.1 - ys.getD 0) * w + yx.2)).foldl
      (fun st j => noneStep okl (buildPalettePrepared okl pal dist) dist st
        (src.getD j ⟨0, 0, 0, 0⟩))
      (makeLUT (cb.getD 5), ([] : List RGBA)) :=
    (List.foldl_map (fun yx : Nat × Nat => (yx.1 - ys.getD 0) * w + yx.2)
      (fun st j => noneStep okl (buildPalettePrepared okl pal dist) dist st
        (src.getD j ⟨0, 0, 0, 0⟩)) _ _).symm
  rw [h1, coords_map_index, ← hlen]
  have h2 : (List.range src.length).foldl
      (fun st j => noneStep okl (buildPalettePrepared okl pal dist) dist st
        (src.getD j ⟨0, 0, 0, 0⟩))
      (makeLUT (cb.getD 5), ([] : List RGBA)) =
    ((List.range src.length).map (fun j => src.getD j ⟨0, 0, 0, 0⟩)).foldl
      (noneStep okl (buildPalettePrepared okl pal dist) dist)
      (makeLUT (cb.getD 5), ([] : List RGBA)) :=
    (List.foldl_map _ _ _ _).symm
  rw [h2, getD_range_map]

theorem runStripsNone_map (okl : ℚ → ℚ → ℚ → ℚ × ℚ × ℚ) (w hgt : Nat)
    (palette : List Nat) (distance : DistanceMode) (bits : Nat)
    (strength : ℚ) (serp : Bool) (S : List RGBA)
    (hH : BucketConsistent okl (buildPalettePrepared okl palette distance)
      distance bits S) :
    ∀ (hs : List Nat) (y0 : Nat) (rem : List RGBA),
      rem.length = hs.sum * w → (∀ p ∈ rem, p ∈ S) →
      runStripsNone okl w hgt palette distance bits strength serp y0 rem hs =
        rem.map (fun px =>
          outOf (buildPalettePrepared okl palette distance)
            (nearestScan okl (px.r : ℚ) (px.g : ℚ) (px.b : ℚ)
              (buildPalettePrepared okl palette distance) distance)) := by
  intro hs
  induction hs with
  | nil =>
    intro y0 rem hlen _
    rw [List.sum_nil, Nat.zero_mul] at hlen
    rw [List.length_eq_zero] at hlen
    subst hlen
    rfl
  | cons r rest ih =>
    intro y0 rem hlen hmem
    rw [List.sum_cons, Nat.add_mul] at hlen
    have htake : (rem.take (r * w)).length = r * w := by
      rw [List.length_take]
      omega
    have hdrop : (rem.drop (r * w)).length = rest.sum * w := by
      rw [List.length_drop]
      omega
    rw [runStripsNone]
    have hbr := doNoneOrOrdered_none_eq okl
      { width := w, height := hgt, src := rem.take (r * w),
        palette := palette, mode := DitherMode.none, distance := distance,
        orderedStrength := strength, serpentine := serp,
        yStart := Option.some y0, yEnd := Option.some (y0 + r),
        cacheBits := Option.some bits, ditherAmount := 1 } rfl
      (by
        dsimp only
        rw [htake, Option.getD_some, Option.getD_some]
        congr 1
        omega)
    rw [hbr]
    have hfold := noneFold_map okl
      (buildPalettePrepared okl palette distance) distance bits S hH
      (rem.take (r * w)) (makeLUT bits) []
      (fun p hp => hmem p (List.mem_of_mem_take hp)) rfl
      (by intro k v hkv; cases hkv)
    dsimp only
    simp only [Option.getD_some]
    rw [hfold.1, List.nil_append]
    rw [ih (y0 + r) (rem.drop (r * w)) hdrop
      (fun p hp => hmem p (List.mem_of_mem_drop hp))]
    rw [← List.map_append, List.take_append_drop]

/-- C1 (amended).  Strip-parallel correctness of mode `'none'` holds for
every source whose pixels are bucket-consistent under the job's LUT
resolution: whenever any two source pixels that share a LUT key also share
their full-scan nearest index (in particular whenever no two distinct frame
colors collide in a bucket), quantizing the frame in any contiguous strip
decomposition and concatenating the strips in [yStart, yEnd) order is
byte-identical to one full-frame `doNoneOrOrdered` run.  Without that
condition the property fails (see the counterexample): a fresh per-strip
LUT changes which pixels inherit a bucket's first-resolved index. -/
theorem c1_strip_parallel (okl : ℚ → ℚ → ℚ → ℚ × ℚ × ℚ) (w hgt : Nat)
    (palette : List Nat) (distance : DistanceMode) (bits : Nat)
    (strength : ℚ) (serp : Bool) (src : List RGBA) (hs : List Nat)
    (hlen : src.length = hgt * w) (hsum : hs.sum = hgt)
    (hH : BucketConsistent okl (buildPalettePrepared okl palette distance)
      distance bits src) :
    runStripsNone okl w hgt palette distance bits strength serp 0 src hs =
      doNoneOrOrdered okl
        { width := w, height := hgt, src := src, palette := palette,
          mode := DitherMode.none, distance := distance,
          orderedStrength := strength, serpentine := serp,
          yStart := Option.none, yEnd := Option.none,
          cacheBits := Option.some bits, ditherAmount := 1 } := by
  have hleft := runStripsNone_map okl w hgt palette distance bits strength
    serp src hH hs 0 src (by rw [hsum, hlen]) (fun p hp => hp)
  have hbr := doNoneOrOrdered_none_eq okl
    { width := w, height := hgt, src := src, palette := palette,
      mode := DitherMode.none, distance := distance,
      orderedStrength := strength, serpentine := serp,
      yStart := Option.none, yEnd := Option.none,
      cacheBits := Option.some bits, ditherAmount := 1 } rfl
    (by dsimp only; rw [Option.getD_none, Option.getD_none, Nat.sub_zero]
        exact hlen)
  have hfold := noneFold_map okl
    (buildPalettePrepared okl palette distance) distance bits src hH src
    (makeLUT bits) [] (fun p hp => hp) rfl (by intro k v hkv; cases hkv)
  rw [hleft, hbr]
  dsimp only
  simp only [Option.getD_some]
  rw [hfold.1, List.nil_append]

/-- The two-pixel frame of the C1 counterexample: both colors fall in the
same 5-bit LUT bucket but have different nearest palette entries. -/
def c1Src : List RGBA := [⟨0, 0, 0, 255⟩, ⟨3, 3, 3, 255⟩]

/-- The palette of the C1 counterexample (black and near-black). -/
def c1Pal : List Nat := [0, 0, 0, 4, 4, 4]

/-- C1 counterexample.  On a 1x2 frame whose two pixels share a LUT bucket,
splitting into two one-row strips gives [(0,0,0),(4,4,4)] while the
full-frame single-strip run gives [(0,0,0),(0,0,0)] — the second pixel
inherits the first pixel's cached index only when both are processed by the
same per-strip cache, so the outputs differ. -/
theorem c1_counterexample :
    runStripsNone oklZero 1 2 c1Pal DistanceMode.rgb 5 1 false 0 c1Src
        [1, 1] = [⟨0, 0, 0, 255⟩, ⟨4, 4, 4, 255⟩] ∧
    doNoneOrOrdered oklZero
        { width := 1, height := 2, src := c1Src, palette := c1Pal,
          mode := DitherMode.none, distance := DistanceMode.rgb,
          orderedStrength := 1, serpentine := false, yStart := Option.none,
          yEnd := Option.none, cacheBits := Option.some 5,
          ditherAmount := 1 } = [⟨0, 0, 0, 255⟩, ⟨0, 0, 0, 255⟩] ∧
    runStripsNone oklZero 1 2 c1Pal DistanceMode.rgb 5 1 false 0 c1Src
        [1, 1] ≠
      doNoneOrOrdered oklZero
        { width := 1, height := 2, src := c1Src, palette := c1Pal,
          mode := DitherMode.none, distance := DistanceMode.rgb,
          orderedStrength := 1, serpentine := false, yStart := Option.none,
          yEnd := Option.none, cacheBits := Option.some 5,
          ditherAmount := 1 } := by
  have h1 : runStripsNone oklZero 1 2 c1Pal DistanceMode.rgb 5 1 false 0
      c1Src [1, 1] = [⟨0, 0, 0, 255⟩, ⟨4, 4, 4, 255⟩] := by
    norm_num +decide [runStripsNone, doNoneOrOrdered, coords, noneCell,
      nearestIdx, nearestScan, scanLoop, rgbDistAt, buildPalettePrepared,
      makeLUT, lutStore, lutKey, jsShr, clamp255, List.range_succ, c1Src,
      c1Pal]
  have h2 : doNoneOrOrdered oklZero
      { width := 1, height := 2, src := c1Src, palette := c1Pal,
        mode := DitherMode.none, distance := DistanceMode.rgb,
        orderedStrength := 1, serpentine := false, yStart := Option.none,
        yEnd := Option.none, cacheBits := Option.some 5,
        ditherAmount := 1 } = [⟨0, 0, 0, 255⟩, ⟨0, 0, 0, 255⟩] := by
    norm_num +decide [doNoneOrOrdered, coords, noneCell, nearestIdx,
      nearestScan, scanLoop, rgbDistAt, buildPalettePrepared, makeLUT,
      lutStore, lutKey, jsShr, clamp255, List.range_succ, c1Src, c1Pal]
  refine ⟨h1, h2, ?_⟩
  rw [h1, h2]
  simp

/-- A bucket-consistent two-pixel frame for the C1 witness: the two colors
lie in different LUT buckets, so the consistency hypothesis holds. -/
def c1WitSrc : List RGBA := [⟨0, 0, 0, 255⟩, ⟨200, 200, 200, 255⟩]

/-- The black-and-white flat palette of the C1 witness. -/
def c1WitPal : List Nat := [0, 0, 0, 255, 255, 255]

theorem c1WitSrc_consistent :
    BucketConsistent oklZero
      (buildPalettePrepared oklZero c1WitPal DistanceMode.rgb)
      DistanceMode.rgb 5 c1WitSrc := by
  intro p hp q hq hk
  simp only [c1WitSrc, List.mem_cons, List.not_mem_nil, or_false] at hp hq
  rcases hp with rfl | rfl <;> rcases hq with rfl | rfl
  · rfl
  · exfalso
    revert hk
    norm_num [lutKey, jsShr]
    decide
  · exfalso
    revert hk
    norm_num [lutKey, jsShr]
    decide
  · rfl

/-- Witness for C1: a bucket-consistent concrete frame split into two
one-row strips agrees with the full-frame run. -/
theorem c1_strip_parallel_witness :
    (c1WitSrc.length = 2 * 1 ∧ ([1, 1] : List Nat).sum = 2 ∧
      BucketConsistent oklZero
        (buildPalettePrepared oklZero c1WitPal DistanceMode.rgb)
        DistanceMode.rgb 5 c1WitSrc) ∧
    runStripsNone oklZero 1 2 c1WitPal DistanceMode.rgb 5 1 false 0 c1WitSrc
        [1, 1] =
      doNoneOrOrdered oklZero
        { width := 1, height := 2, src := c1WitSrc, palette := c1WitPal,
          mode := DitherMode.none, distance := DistanceMode.rgb,
          orderedStrength := 1, serpentine := false, yStart := Option.none,
          yEnd := Option.none, cacheBits := Option.some 5,
          ditherAmount := 1 } :=
  ⟨⟨rfl, rfl, c1WitSrc_consistent⟩,
   c1_strip_parallel oklZero 1 2 c1WitPal DistanceMode.rgb 5 1 false
     c1WitSrc [1, 1] rfl rfl c1WitSrc_consistent⟩
